import Mathlib

/-!
# GDrive-CDN: request pipeline, response cache and file handlers

A shallow embedding of `src/middleware/auth.js`, `src/middleware/cache.js`,
`src/controllers/fileController.js`, `src/utils/helpers.js` and the route table of
`src/index.js`, followed by the properties established about them.

Conventions of the embedding:

* JavaScript values are `JsVal`; truthiness, `||` and `===` are the language's.
* A response object is the record `Res` of the effects the code has on it
  (`res.status`, `res.set`, `res.json`, `res.send`, `stream.pipe(res)`).
* The cache is the `node-cache` store created at `cache.js` lines 3-7; time is an
  explicit argument `now` (milliseconds, the value of `Date.now()`).
* The storage client is an oracle `Drive` of call outcomes; the calls made are logged.
-/

namespace GDriveCDN

/-! ## JavaScript values -/

/-- JSON-like JavaScript values. -/
inductive JsVal where
  | undefined
  | null
  | bool (b : Bool)
  | num (n : Int)
  | str (s : String)
  | arr (items : List JsVal)
  | obj (fields : List (String × JsVal))

namespace JsVal

/-- JavaScript truthiness (`if (v)`, `!v`, `v || w`). -/
def truthy : JsVal → Bool
  | undefined => false
  | null => false
  | bool b => b
  | num n => n != 0
  | str s => s != ""
  | arr _ => true
  | obj _ => true

/-- The operator `a || b`. -/
def or (a b : JsVal) : JsVal := if a.truthy then a else b

/-- Strict equality `a === b`; two separately built objects or arrays are never identical. -/
def strictEq : JsVal → JsVal → Bool
  | undefined, undefined => true
  | null, null => true
  | bool a, bool b => a == b
  | num a, num b => a == b
  | str a, str b => a == b
  | _, _ => false

/-- Property read `v[name]` on a value that is not null or undefined. -/
def prop (v : JsVal) (name : String) : JsVal :=
  match v with
  | obj fields => ((fields.find? (fun p => p.1 == name)).map (fun p => p.2)).getD undefined
  | _ => undefined

/-- An optional string as a JavaScript value (`undefined` when absent). -/
def ofOption : Option String → JsVal
  | none => undefined
  | some s => str s

end JsVal

/-- `String.prototype.startsWith`. -/
def startsWith (s pre : String) : Bool := pre.data.isPrefixOf s.data

/-- Whether the list `p` occurs in `s` as a block of consecutive elements. -/
def isInfixOf (p : List Char) : List Char → Bool
  | [] => p.isEmpty
  | c :: cs => p.isPrefixOf (c :: cs) || isInfixOf p cs

/-- `String.prototype.includes`. -/
def includes (s pat : String) : Bool := isInfixOf pat.data s.data

/-! ## Requests, responses, environment -/

/-- The process environment variables the code reads. -/
structure Env where
  API_KEY : Option String := none
  NODE_ENV : Option String := none
  CACHE_DURATION : Option String := none
  MAX_FILE_SIZE : Option String := none

/-- A file parsed by multer (`req.file`, an element of `req.files`). -/
structure File where
  originalname : String
  mimetype : String
  size : Nat

/-- The parts of an Express request the code reads. -/
structure Req where
  method : String := "GET"
  /-- The value of `req.path`: the path relative to the mount point of the middleware. -/
  path : String := "/"
  originalUrl : String := "/"
  headers : List (String × String) := []
  query : List (String × JsVal) := []
  params : List (String × String) := []
  body : JsVal := .obj []
  file : Option File := none
  files : Option (List File) := none
  protocol : String := "http"
  host : String := "localhost"

/-- The value of `req.headers[name]`. -/
def Req.header (req : Req) (name : String) : JsVal :=
  JsVal.ofOption ((req.headers.find? (fun p => p.1 == name)).map (fun p => p.2))

/-- The value of `req.query[name]`. -/
def Req.queryParam (req : Req) (name : String) : JsVal :=
  ((req.query.find? (fun p => p.1 == name)).map (fun p => p.2)).getD JsVal.undefined

/-- The value of `req.params[name]` (a route parameter, a string). -/
def Req.param (req : Req) (name : String) : String :=
  ((req.params.find? (fun p => p.1 == name)).map (fun p => p.2)).getD ""

/-- What was handed to the client. -/
inductive Payload where
  | json (body : JsVal)
  | send (data : JsVal)
  | piped (stream : String)

/-- The response object: status, headers set by the code, payload sent, and the cache hook
installed by `cacheMiddleware` (key and duration under which the patched `res.json` stores). -/
structure Res where
  statusCode : Nat := 200
  headers : List (String × JsVal) := []
  sent : Option Payload := none
  cacheHook : Option (String × Option Int) := none

/-- The call `res.set(name, value)`. -/
def Res.set (res : Res) (name : String) (value : JsVal) : Res :=
  { res with headers := res.headers.filter (fun p => !(p.1 == name)) ++ [(name, value)] }

/-- The value of a response header. -/
def Res.getHeader (res : Res) (name : String) : Option JsVal :=
  (res.headers.find? (fun p => p.1 == name)).map (fun p => p.2)

/-- The call `res.status(code)`. -/
def Res.status (res : Res) (code : Nat) : Res := { res with statusCode := code }

/-- The error envelope `{ success: false, error: msg }`. -/
def errorEnvelope (msg : String) : JsVal :=
  .obj [("success", .bool false), ("error", .str msg)]

/-! ## `middleware/auth.js` -/

/-- What a middleware did with a request when it writes no cache state: it called `next()`,
or it answered with a status and a JSON body. -/
inductive Outcome where
  | next
  | respond (status : Nat) (body : JsVal)

/-- The list `publicPaths` of `authenticate`. -/
def publicPaths : List String := ["/cdn/", "/file/"]

/-- The key read by `authenticate`: `req.headers['x-api-key'] || req.query.apiKey`. -/
def suppliedKey (req : Req) : JsVal :=
  (req.header "x-api-key").or (req.queryParam "apiKey")

/-- The middleware `authenticate` of `auth.js`. -/
def authenticate (env : Env) (req : Req) : Outcome :=
  let apiKey := suppliedKey req
  if publicPaths.any (fun p => startsWith req.path p) then .next
  else if !apiKey.truthy then .respond 401 (errorEnvelope "API key is required")
  else if !(apiKey.strictEq (JsVal.ofOption env.API_KEY)) then
    .respond 403 (errorEnvelope "Invalid API key")
  else .next

/-- The path a middleware mounted with `app.use(mount, ...)` sees as `req.path`: the mount
point is stripped; `none` when the request is not under the mount point. Express matches
the mount point without regard to the case of ASCII letters, and only up to a `/` or the
end of the path; the `/` after the mount point is stripped too when another `/` follows. -/
def stripMount (mount path : String) : Option String :=
  if path.data.map Char.toLower = mount.data.map Char.toLower then some "/"
  else if (path.data.take (mount.data.length + 1)).map Char.toLower =
      (mount.data ++ ['/']).map Char.toLower then
    if (path.data.drop (mount.data.length + 1)).head? = some '/' then
      some ⟨path.data.drop (mount.data.length + 1)⟩
    else some ⟨path.data.drop mount.data.length⟩
  else none

/-- The gate `app.use('/api', authenticate, ...)` of `index.js` applied to a request whose
full path is `req.path`: requests outside `/api` are not seen by it. -/
def apiGate (env : Env) (req : Req) : Option Outcome :=
  (stripMount "/api" req.path).map (fun p => authenticate env { req with path := p })

/-! ## The `node-cache` store of `middleware/cache.js` -/

/-- A JavaScript error object: the fields the code reads. -/
structure JsError where
  name : String := "Error"
  code : JsVal := .undefined
  message : String := ""

/-- A stored value with its expiry time `t` in milliseconds (`0`: never expires). -/
structure Entry where
  t : Int
  v : JsVal

/-- The store `new NodeCache({ stdTTL, checkperiod: 600, maxKeys: 1000 })`: its options and its
entries in insertion order, one per key. The key count of the store is the number of entries. -/
structure NodeCache where
  stdTTL : Int := 3600
  maxKeys : Int := 1000
  data : List (String × Entry) := []

namespace NodeCache

/-- The entry stored under a key, expired or not. -/
def lookup (c : NodeCache) (key : String) : Option Entry :=
  (c.data.find? (fun p => p.1 == key)).map (fun p => p.2)

/-- The call `cache.keys()`. -/
def keys (c : NodeCache) : List String := c.data.map (fun p => p.1)

/-- The call `cache.del(key)`. -/
def del (c : NodeCache) (key : String) : NodeCache :=
  { c with data := c.data.filter (fun p => !(p.1 == key)) }

/-- The call `cache.flushAll()`. -/
def flushAll (c : NodeCache) : NodeCache := { c with data := [] }

/-- The call `cache.get(key)` at time `now`: the stored value, or `undefined` when there is
none or it has expired; an expired entry is deleted. -/
def get (c : NodeCache) (now : Int) (key : String) : JsVal × NodeCache :=
  match c.lookup key with
  | some e => if e.t ≠ 0 ∧ e.t < now then (.undefined, c.del key) else (e.v, c)
  | none => (.undefined, c)

/-- The error thrown by `set` on a full store. -/
def cacheFull : JsError := { name := "ECACHEFULL", message := "Cache max keys amount exceeded" }

/-- The expiry time of a value stored at `now` with a time to live of `ttl` seconds. -/
def livetime (now ttl : Int) : Int := if ttl = 0 then 0 else now + ttl * 1000

/-- The call `cache.set(key, value, ttl)` at time `now`. When the key count has reached
`maxKeys` the library throws `ECACHEFULL` and stores nothing; otherwise the value is stored
under the key, replacing an entry already there, with `stdTTL` for an absent `ttl`. -/
def set (c : NodeCache) (now : Int) (key : String) (value : JsVal) (ttl : Option Int) :
    Except JsError NodeCache :=
  if c.maxKeys > -1 ∧ (c.data.length : Int) ≥ c.maxKeys then .error cacheFull
  else
    let e : Entry := { t := livetime now (ttl.getD c.stdTTL), v := value }
    if c.data.any (fun p => p.1 == key) then
      .ok { c with data := c.data.map (fun p => if p.1 == key then (key, e) else p) }
    else .ok { c with data := c.data ++ [(key, e)] }

end NodeCache

/-! ## The storage client `services/driveService.js` as an oracle -/

/-- The object returned by `driveService.uploadFile`. -/
structure UploadResult where
  id : String
  name : String
  mimeType : String
  size : String
  createdAt : String

/-- The metadata object returned by `driveService.getFileInfo`. -/
structure FileInfo where
  id : String
  name : String
  mimeType : String
  size : String
  createdTime : String
  modifiedTime : String

/-- An entry of the list returned by `driveService.listFiles`; `size` is absent for files
without binary content. -/
structure DriveFile where
  id : String
  name : String
  mimeType : String
  size : Option String
  createdTime : String

/-- The object returned by `driveService.listFiles`. -/
structure FileList where
  files : List DriveFile
  nextPageToken : Option String

/-- The object returned by `driveService.getStorageStats`. -/
structure StorageQuota where
  usage : Option String
  limit : Option String

/-- The outcome of each storage-client call: a value, or the error it throws. The uploads of
one request are told apart by the position of the file in the request. -/
structure Drive where
  uploadFile : Nat → File → JsVal → Except JsError UploadResult
  getFileInfo : String → Except JsError FileInfo
  getFileStream : String → Except JsError String
  deleteFile : String → Except JsError Unit
  listFiles : Option Int → JsVal → Except JsError FileList
  getStorageStats : Except JsError StorageQuota

/-- A call made to the storage client. -/
inductive DriveCall where
  | uploadFile (file : File)
  | getFileInfo (fileId : String)
  | getFileStream (fileId : String)
  | deleteFile (fileId : String)
  | listFiles (pageSize : Option Int)
  | getStorageStats

/-! ## `middleware/cache.js` -/

/-- The state a request runs in: the cache, the response object, the log of storage-client
calls, and the error of an exception that nothing caught. -/
structure Run where
  cache : NodeCache := {}
  res : Res := {}
  calls : List DriveCall := []
  threw : Option JsError := none

namespace Run

/-- The call `res.status(code)`. -/
def status (r : Run) (code : Nat) : Run := { r with res := r.res.status code }

/-- The call `res.set(name, value)`. -/
def set (r : Run) (name : String) (value : JsVal) : Run := { r with res := r.res.set name value }

/-- The call `res.json(body)` at time `now`. On a response patched by `cacheMiddleware` the
body is first stored with `cache.set(key, body, duration)`, whose exception leaves the
response unsent; then the original `res.json` sends the body. -/
def json (r : Run) (now : Int) (body : JsVal) : Run :=
  match r.res.cacheHook with
  | some (key, duration) =>
    match r.cache.set now key body duration with
    | .ok c => { r with cache := c, res := { r.res with sent := some (.json body) } }
    | .error e => { r with threw := some e }
  | none => { r with res := { r.res with sent := some (.json body) } }

/-- The call `res.sendCached(data, contentType)` at time `now`, defined on a response patched
by `cacheMiddleware` only (calling it elsewhere is a `TypeError`). -/
def sendCached (r : Run) (now : Int) (data : JsVal) (contentType : JsVal) : Run :=
  match r.res.cacheHook with
  | some (key, duration) =>
    match r.cache.set now key (.obj [("data", data), ("contentType", contentType)]) duration with
    | .ok c =>
      { r with cache := c,
               res := { r.res.set "Content-Type" contentType with sent := some (.send data) } }
    | .error e => { r with threw := some e }
  | none => { r with threw := some { name := "TypeError",
                                      message := "res.sendCached is not a function" } }

/-- The statement `try { ... } catch (error) { handler }` around a block that ran to `r`. -/
def catchWith (r : Run) (handler : JsError → Run → Run) : Run :=
  match r.threw with
  | some e => handler e { r with threw := none }
  | none => r

end Run

/-- The text `duration || process.env.CACHE_DURATION || 3600` of the `Cache-Control` header. -/
def maxAge (env : Env) (duration : Option Int) : String :=
  let fromEnv : String :=
    match env.CACHE_DURATION with
    | some s => if s != "" then s else "3600"
    | none => "3600"
  match duration with
  | some d => if d != 0 then toString d else fromEnv
  | none => fromEnv

/-- What `cacheMiddleware` did: answered from the cache (`next` not called), or tagged and
patched the response and called `next`. -/
inductive MwResult where
  | responded (r : Run)
  | next (r : Run)

/-- The middleware `cacheMiddleware(duration)` of `cache.js`, at time `now`. -/
def cacheMiddleware (env : Env) (duration : Option Int) (now : Int) (req : Req) (r : Run) :
    MwResult :=
  let key := req.originalUrl
  let cachedResponse := (r.cache.get now key).1
  let r0 : Run := { r with cache := (r.cache.get now key).2 }
  if cachedResponse.truthy then
    let r1 := (r0.set "X-Cache" (.str "HIT")).set "Cache-Control"
      (.str ("public, max-age=" ++ maxAge env duration))
    if (cachedResponse.prop "contentType").truthy then
      let r2 := r1.set "Content-Type" (cachedResponse.prop "contentType")
      .responded { r2 with res := { r2.res with sent := some (.send (cachedResponse.prop "data")) } }
    else .responded (r1.json now cachedResponse)
  else
    let r1 := r0.set "X-Cache" (.str "MISS")
    .next { r1 with res := { r1.res with cacheHook := some (key, duration) } }

/-- The function `clearCache(pattern)` of `cache.js`; `pattern` is a string, `null` or
`undefined` (here `none`). -/
def clearCache (pattern : Option String) (c : NodeCache) : NodeCache :=
  match pattern with
  | some p =>
    if p != "" then
      c.keys.foldl (fun acc key => if includes key p then acc.del key else acc) c
    else c.flushAll
  | none => c.flushAll

/-- A route `app.METHOD(path, cacheMiddleware(duration), handler)`. -/
def cachedRoute (env : Env) (duration : Option Int) (handler : Int → Req → Run → Run)
    (now : Int) (req : Req) (r : Run) : Run :=
  match cacheMiddleware env duration now req r with
  | .responded r1 => r1
  | .next r1 => handler now req r1

/-- The state a handler leaves is replayable at `now` under `key` when whatever it sent
through `res.json` is a truthy value without a truthy `contentType` property that
`cache.get(key)` returns. -/
def Replayable (now : Int) (key : String) (r : Run) : Prop :=
  ∀ b, r.res.sent = some (.json b) →
    b.truthy = true ∧ (b.prop "contentType").truthy = false ∧
    r.cache.get now key = (b, r.cache)

/-! ## `utils/helpers.js` -/

/-- The table `ALLOWED_TYPES`. -/
def ALLOWED_TYPES : List (String × List String) :=
  [("image", ["image/jpeg", "image/png", "image/gif", "image/webp", "image/svg+xml",
              "image/bmp"]),
   ("document", ["application/pdf", "application/msword",
      "application/vnd.openxmlformats-officedocument.wordprocessingml.document"]),
   ("video", ["video/mp4", "video/webm", "video/ogg"]),
   ("audio", ["audio/mpeg", "audio/wav", "audio/ogg", "audio/webm"]),
   ("archive", ["application/zip", "application/x-rar-compressed",
                "application/x-7z-compressed"]),
   ("code", ["text/html", "text/css", "application/javascript", "application/json"])]

/-- The list `ALL_ALLOWED_TYPES`. -/
def ALL_ALLOWED_TYPES : List String := (ALLOWED_TYPES.map (fun p => p.2)).flatten

/-- The helper `validateFileType(mimetype, allowedCategories = null)`. -/
def validateFileType (mimetype : String) (allowedCategories : Option (List String)) : Bool :=
  match allowedCategories with
  | some cats =>
    let allowedTypes :=
      (cats.map (fun cat =>
        ((ALLOWED_TYPES.find? (fun p => p.1 == cat)).map (fun p => p.2)).getD [])).flatten
    allowedTypes.contains mimetype
  | none => ALL_ALLOWED_TYPES.contains mimetype

/-- The helper `getFileCategory(mimetype)`. -/
def getFileCategory (mimetype : String) : String :=
  ((ALLOWED_TYPES.find? (fun p => p.2.contains mimetype)).map (fun p => p.1)).getD "other"

/-- The helper `generateCdnUrl(req, fileId, fileName = null)`. -/
def generateCdnUrl (req : Req) (fileId : String) (fileName : Option String) : String :=
  let baseUrl := req.protocol ++ "://" ++ req.host
  match fileName with
  | some n => if n != "" then baseUrl ++ "/cdn/" ++ fileId ++ "/" ++ n
              else baseUrl ++ "/cdn/" ++ fileId
  | none => baseUrl ++ "/cdn/" ++ fileId

/-- The value of a digit character in a radix, if it is one. -/
def digitVal (radix : Nat) (c : Char) : Option Nat :=
  let v : Option Nat :=
    if c.isDigit then some (c.toNat - 48)
    else if c.isLower then some (c.toNat - 87)
    else if c.isUpper then some (c.toNat - 55)
    else none
  v.filter (fun d => d < radix)

/-- The loop reading a run of digits: `acc` is the number read so far, `none` before the
first digit. -/
def readDigitsFrom (radix : Nat) : List Char → Option Nat → Option Nat
  | [], acc => acc
  | c :: cs, acc =>
    match digitVal radix c with
    | some d => readDigitsFrom radix cs (some (acc.getD 0 * radix + d))
    | none => acc

/-- The number read from the longest run of digits at the head of a list, `none` when the
run is empty. -/
def readDigits (radix : Nat) (cs : List Char) : Option Nat := readDigitsFrom radix cs none

/-- The white space and line terminators that `parseInt` skips at the head of its input. -/
def isJsWhitespace (c : Char) : Bool :=
  [0x9, 0xA, 0xB, 0xC, 0xD, 0x20, 0xA0, 0x1680, 0x2028, 0x2029, 0x202F, 0x205F, 0x3000,
    0xFEFF].contains c.toNat || (0x2000 ≤ c.toNat && c.toNat ≤ 0x200A)

/-- The number of binary digits of `n`, `fuel` bounding the count; `fuel = n` is enough. -/
def bitLength : Nat → Nat → Nat
  | 0, _ => 0
  | fuel + 1, n => if n = 0 then 0 else bitLength fuel (n / 2) + 1

/-- The integer a double holds for the mathematical integer `n`: `n` itself below `2^53`,
else `n` rounded to 53 significant binary digits, to nearest, ties to even. Values beyond
the range of doubles (`Infinity`) are not modelled. -/
def toDouble (n : Nat) : Nat :=
  if n < 2 ^ 53 then n
  else
    let e := bitLength n n - 53
    let q := n / 2 ^ e
    let r := n % 2 ^ e
    if 2 * r > 2 ^ e || (2 * r == 2 ^ e && q % 2 == 1) then (q + 1) * 2 ^ e else q * 2 ^ e

/-- The function `parseInt(text)` on an environment variable or a field; `none` is `NaN`. -/
def parseInt (text : Option String) : Option Int :=
  match text with
  | none => none
  | some s =>
    let cs := s.data.dropWhile isJsWhitespace
    let neg := cs.head? == some '-'
    let cs1 := if cs.head? == some '-' || cs.head? == some '+' then cs.drop 1 else cs
    let hex := cs1.take 2 == ['0', 'x'] || cs1.take 2 == ['0', 'X']
    let n := if hex then readDigits 16 (cs1.drop 2) else readDigits 10 cs1
    n.map (fun v => if neg then -(toDouble v : Int) else (toDouble v : Int))

/-- The expression `parseInt(text) || dflt`. -/
def parseIntOr (text : Option String) (dflt : Int) : Int :=
  match parseInt text with
  | some n => if n != 0 then n else dflt
  | none => dflt

/-- The table `sizes` of `formatFileSize`. -/
def sizes : List String := ["Bytes", "KB", "MB", "GB"]

/-- The number of hundredths in `(bytes / Math.pow(k, i)).toFixed(2)` with `k = 1024`. The
quotient by a power of two is exact in binary floating point, and `toFixed(2)` takes the
integer `n` for which `n / 100` is nearest to it, the larger one at a tie. -/
def hundredths (i bytes : Nat) : Nat := (200 * bytes + 1024 ^ i) / (2 * 1024 ^ i)

/-- The decimals JavaScript prints for a number with `m < 100` hundredths after the point:
none for `0`, one digit when the second is `0`, else two. -/
def fractionText (m : Nat) : String :=
  if m = 0 then ""
  else if m % 10 = 0 then String.mk ['.', Nat.digitChar (m / 10)]
  else String.mk ['.', Nat.digitChar (m / 10), Nat.digitChar (m % 10)]

/-- The helper `formatFileSize(bytes)` on the result of `parseInt` (`none` is `NaN`). The
index `Math.floor(Math.log(bytes) / Math.log(k))`, computed in double precision, is the
parameter `logIndex`, a function of `bytes ≥ 1`. For `NaN` and for a negative number every
intermediate value is `NaN`, and an index outside the table reads `undefined`; the number
`parseFloat(...)` is printed without trailing zeros. -/
def formatFileSize (logIndex : Nat → Nat) (bytes : Option Int) : String :=
  match bytes with
  | none => "NaN undefined"
  | some b =>
    if b = 0 then "0 Bytes"
    else if b < 0 then "NaN undefined"
    else
      toString (hundredths (logIndex b.toNat) b.toNat / 100) ++
        fractionText (hundredths (logIndex b.toNat) b.toNat % 100) ++ " " ++
        (sizes[logIndex b.toNat]?).getD "undefined"

/-! ## `controllers/fileController.js`

The handlers take the time `now`, the storage oracle, and the helper `formatFileSize` (a
floating-point computation) as a function on the result of `parseInt`. -/

/-- The fields of an upload result as object fields. -/
def UploadResult.fields (u : UploadResult) : List (String × JsVal) :=
  [("id", .str u.id), ("name", .str u.name), ("mimeType", .str u.mimeType),
   ("size", .str u.size), ("createdAt", .str u.createdAt)]

/-- The fields of a metadata object as object fields. -/
def FileInfo.fields (f : FileInfo) : List (String × JsVal) :=
  [("id", .str f.id), ("name", .str f.name), ("mimeType", .str f.mimeType),
   ("size", .str f.size), ("createdTime", .str f.createdTime),
   ("modifiedTime", .str f.modifiedTime)]

/-- The handler `upload` (`POST /api/upload`). -/
def upload (env : Env) (drive : Drive) (formatFileSize : Option Int → String) (now : Int)
    (req : Req) (r : Run) : Run :=
  let attempt : Run :=
    match req.file with
    | none => (r.status 400).json now (errorEnvelope "No file provided")
    | some file =>
      let maxSize := parseIntOr env.MAX_FILE_SIZE 50 * 1024 * 1024
      if (file.size : Int) > maxSize then
        let shown := match env.MAX_FILE_SIZE with
          | some s => if s != "" then s else "50"
          | none => "50"
        (r.status 400).json now
          (errorEnvelope ("File size exceeds maximum limit of " ++ shown ++ "MB"))
      else if !validateFileType file.mimetype none then
        (r.status 400).json now (errorEnvelope "File type not allowed")
      else
        let customName := (req.body.prop "name").or .null
        let r1 : Run := { r with calls := r.calls ++ [.uploadFile file] }
        match drive.uploadFile 0 file customName with
        | .error e => { r1 with threw := some e }
        | .ok result =>
          (r1.status 201).json now (.obj [("success", .bool true),
            ("data", .obj (result.fields ++
              [("url", .str (generateCdnUrl req result.id none)),
               ("directUrl", .str (generateCdnUrl req result.id (some result.name))),
               ("category", .str (getFileCategory result.mimeType)),
               ("formattedSize", .str (formatFileSize (parseInt (some result.size))))]))])
  attempt.catchWith (fun error r2 =>
    (r2.status 500).json now (.obj [("success", .bool false),
      ("error", .str "Failed to upload file"), ("message", .str error.message)]))

/-- The lists `results` and `errors` built by the loop of `uploadMultiple`, with the storage
calls made. -/
structure Batch where
  results : List JsVal := []
  errors : List JsVal := []
  calls : List DriveCall := []

/-- The loop `for (const file of req.files) { try { ... } catch (err) { ... } }` of
`uploadMultiple`, from the file at position `i` on. -/
def uploadLoop (drive : Drive) (req : Req) : Nat → List File → Batch → Batch
  | _, [], acc => acc
  | i, file :: rest, acc =>
    if !validateFileType file.mimetype none then
      uploadLoop drive req (i + 1) rest
        { acc with errors := acc.errors ++
            [.obj [("name", .str file.originalname), ("error", .str "File type not allowed")]] }
    else
      match drive.uploadFile i file .null with
      | .ok result =>
        uploadLoop drive req (i + 1) rest
          { acc with calls := acc.calls ++ [.uploadFile file],
                     results := acc.results ++ [.obj (result.fields ++
                       [("url", .str (generateCdnUrl req result.id none)),
                        ("directUrl",
                          .str (generateCdnUrl req result.id (some result.name)))])] }
      | .error err =>
        uploadLoop drive req (i + 1) rest
          { acc with calls := acc.calls ++ [.uploadFile file],
                     errors := acc.errors ++
                       [.obj [("name", .str file.originalname), ("error", .str err.message)]] }

/-- The handler `uploadMultiple` (`POST /api/upload/multiple`). -/
def uploadMultiple (drive : Drive) (now : Int) (req : Req) (r : Run) : Run :=
  let attempt : Run :=
    match req.files with
    | none => (r.status 400).json now (errorEnvelope "No files provided")
    | some files =>
      if files.length == 0 then (r.status 400).json now (errorEnvelope "No files provided")
      else
        let b := uploadLoop drive req 0 files {}
        let r1 : Run := { r with calls := r.calls ++ b.calls }
        (r1.status 201).json now (.obj [("success", .bool true),
          ("data", .obj [("uploaded", .arr b.results), ("failed", .arr b.errors),
                         ("total", .num files.length), ("successful", .num b.results.length)])])
  attempt.catchWith (fun _ r2 => (r2.status 500).json now (errorEnvelope "Failed to upload files"))

/-- The handler `serve` (`GET /cdn/:fileId`, `GET /cdn/:fileId/:filename`). -/
def serve (drive : Drive) (now : Int) (req : Req) (r : Run) : Run :=
  let fileId := req.param "fileId"
  let r1 : Run := { r with calls := r.calls ++ [.getFileInfo fileId] }
  let attempt : Run :=
    match drive.getFileInfo fileId with
    | .error e => { r1 with threw := some e }
    | .ok fileInfo =>
      let r2 : Run := { r1 with calls := r1.calls ++ [.getFileStream fileId] }
      match drive.getFileStream fileId with
      | .error e => { r2 with threw := some e }
      | .ok stream =>
        let r3 := (((r2.set "Content-Type" (.str fileInfo.mimeType)).set "Content-Disposition"
          (.str ("inline; filename=\"" ++ fileInfo.name ++ "\""))).set "Cache-Control"
          (.str "public, max-age=31536000")).set "Access-Control-Allow-Origin" (.str "*")
        { r3 with res := { r3.res with sent := some (.piped stream) } }
  attempt.catchWith (fun error r2 =>
    if error.code.strictEq (.num 404) then (r2.status 404).json now (errorEnvelope "File not found")
    else (r2.status 500).json now (errorEnvelope "Failed to serve file"))

/-- The handler `download` (`GET /download/:fileId`). -/
def download (drive : Drive) (now : Int) (req : Req) (r : Run) : Run :=
  let fileId := req.param "fileId"
  let r1 : Run := { r with calls := r.calls ++ [.getFileInfo fileId] }
  let attempt : Run :=
    match drive.getFileInfo fileId with
    | .error e => { r1 with threw := some e }
    | .ok fileInfo =>
      let r2 : Run := { r1 with calls := r1.calls ++ [.getFileStream fileId] }
      match drive.getFileStream fileId with
      | .error e => { r2 with threw := some e }
      | .ok stream =>
        let r3 := (r2.set "Content-Type" (.str fileInfo.mimeType)).set "Content-Disposition"
          (.str ("attachment; filename=\"" ++ fileInfo.name ++ "\""))
        { r3 with res := { r3.res with sent := some (.piped stream) } }
  attempt.catchWith (fun _ r2 => (r2.status 500).json now (errorEnvelope "Failed to download file"))

/-- The handler `getInfo` (`GET /api/file/:fileId`). -/
def getInfo (drive : Drive) (formatFileSize : Option Int → String) (now : Int) (req : Req)
    (r : Run) : Run :=
  let fileId := req.param "fileId"
  let r1 : Run := { r with calls := r.calls ++ [.getFileInfo fileId] }
  let attempt : Run :=
    match drive.getFileInfo fileId with
    | .error e => { r1 with threw := some e }
    | .ok fileInfo =>
      r1.json now (.obj [("success", .bool true),
        ("data", .obj (fileInfo.fields ++
          [("url", .str (generateCdnUrl req fileId none)),
           ("formattedSize", .str (formatFileSize (parseInt (some fileInfo.size)))),
           ("category", .str (getFileCategory fileInfo.mimeType))]))])
  attempt.catchWith (fun _ r2 => (r2.status 500).json now (errorEnvelope "Failed to get file info"))

/-- The handler `delete` (`DELETE /api/file/:fileId`). -/
def delete (drive : Drive) (now : Int) (req : Req) (r : Run) : Run :=
  let fileId := req.param "fileId"
  let r1 : Run := { r with calls := r.calls ++ [.deleteFile fileId] }
  let attempt : Run :=
    match drive.deleteFile fileId with
    | .error e => { r1 with threw := some e }
    | .ok _ =>
      let r2 : Run := { r1 with cache := clearCache (some fileId) r1.cache }
      r2.json now (.obj [("success", .bool true), ("message", .str "File deleted successfully")])
  attempt.catchWith (fun _ r2 => (r2.status 500).json now (errorEnvelope "Failed to delete file"))

/-- The function `parseInt(value)` on a value of `req.query` or a number: the value is first
turned into text, an array into the texts of its elements joined by commas, so that only
its first element counts. -/
def parseIntVal : JsVal → Option Int
  | .str s => parseInt (some s)
  | .num n => some n
  | .arr (.str s :: _) => parseInt (some s)
  | .arr (.num n :: _) => some n
  | _ => none

/-- A number that may be `NaN` as a value of a response body; JSON writes `NaN` as `null`. -/
def ofNumber : Option Int → JsVal
  | some n => .num n
  | none => .null

/-- The fields of a listed file as object fields. -/
def DriveFile.fields (f : DriveFile) : List (String × JsVal) :=
  [("id", .str f.id), ("name", .str f.name), ("mimeType", .str f.mimeType)] ++
    (match f.size with
     | some sz => [("size", .str sz)]
     | none => []) ++
    [("createdTime", .str f.createdTime)]

/-- The handler `list` (`GET /api/files`). -/
def list (drive : Drive) (formatFileSize : Option Int → String) (now : Int) (req : Req)
    (r : Run) : Run :=
  let pageSize :=
    match req.queryParam "pageSize" with
    | .undefined => JsVal.num 50
    | v => v
  let pageToken := req.queryParam "pageToken"
  let r1 : Run := { r with calls := r.calls ++ [.listFiles (parseIntVal pageSize)] }
  let attempt : Run :=
    match drive.listFiles (parseIntVal pageSize) pageToken with
    | .error e => { r1 with threw := some e }
    | .ok result =>
      let files := result.files.map (fun file =>
        JsVal.obj (file.fields ++
          [("url", .str (generateCdnUrl req file.id none)),
           ("formattedSize", .str (formatFileSize
              (match file.size with
               | some sz => if sz != "" then parseInt (some sz) else some 0
               | none => some 0))),
           ("category", .str (getFileCategory file.mimeType))]))
      r1.json now (.obj [("success", .bool true),
        ("data", .obj [("files", .arr files),
                       ("nextPageToken", JsVal.ofOption result.nextPageToken),
                       ("count", .num files.length)])])
  attempt.catchWith (fun _ r2 => (r2.status 500).json now (errorEnvelope "Failed to list files"))

/-- The handler `stats` (`GET /api/stats`); the text `percentUsed`, a floating-point
computation, is a function of the two results of `parseInt`. -/
def stats (drive : Drive) (formatFileSize : Option Int → String)
    (percentUsed : Option Int → Option Int → String) (now : Int) (_req : Req) (r : Run) : Run :=
  let r1 : Run := { r with calls := r.calls ++ [.getStorageStats] }
  let attempt : Run :=
    match drive.getStorageStats with
    | .error e => { r1 with threw := some e }
    | .ok quota =>
      let r2 : Run := { r1 with calls := r1.calls ++ [.listFiles (some 1000)] }
      match drive.listFiles (some 1000) .undefined with
      | .error e => { r2 with threw := some e }
      | .ok result =>
        r2.json now (.obj [("success", .bool true),
          ("data", .obj [
            ("storage", .obj [
              ("used", .str (formatFileSize (parseInt quota.usage))),
              ("total", .str (formatFileSize (parseInt quota.limit))),
              ("usedBytes", ofNumber (parseInt quota.usage)),
              ("totalBytes", ofNumber (parseInt quota.limit)),
              ("percentUsed", .str (percentUsed (parseInt quota.usage) (parseInt quota.limit)))]),
            ("files", .obj [("total", .num result.files.length)])])])
  attempt.catchWith (fun _ r2 => (r2.status 500).json now (errorEnvelope "Failed to get stats"))

/-! ## The cached routes of `index.js` -/

/-- The route `app.get('/cdn/:fileId', downloadLimiter, cacheMiddleware(86400), serve)`, for a
request the rate limiter lets through. -/
def cdnRoute (env : Env) (drive : Drive) (now : Int) (req : Req) (r : Run) : Run :=
  cachedRoute env (some 86400) (serve drive) now req r

/-- The route `app.get('/api/file/:fileId', cacheMiddleware(300), getInfo)`, behind the gate. -/
def fileInfoRoute (env : Env) (drive : Drive) (formatFileSize : Option Int → String)
    (now : Int) (req : Req) (r : Run) : Run :=
  cachedRoute env (some 300) (getInfo drive formatFileSize) now req r

/-- The routes of `index.js` that are wrapped by `cacheMiddleware`: `/cdn/:fileId`,
`/cdn/:fileId/:filename`, `/api/file/:fileId`, `/api/files` and `/api/stats`. -/
inductive CachedRoute where
  | cdn
  | cdnNamed
  | fileInfo
  | files
  | stats

/-- The duration given to `cacheMiddleware` on each cached route. -/
def CachedRoute.duration : CachedRoute → Int
  | .cdn => 86400
  | .cdnNamed => 86400
  | .fileInfo => 300
  | .files => 60
  | .stats => 300

/-- The handler of each cached route. -/
def CachedRoute.handler (drive : Drive) (formatFileSize : Option Int → String)
    (percentUsed : Option Int → Option Int → String) :
    CachedRoute → Int → Req → Run → Run
  | .cdn => serve drive
  | .cdnNamed => serve drive
  | .fileInfo => getInfo drive formatFileSize
  | .files => GDriveCDN.list drive formatFileSize
  | .stats => GDriveCDN.stats drive formatFileSize percentUsed

/-! ## The outcome of a batch upload, file by file -/

/-- The entry of `data.uploaded` for a stored file. -/
def uploadedEntry (req : Req) (result : UploadResult) : JsVal :=
  .obj (result.fields ++
    [("url", .str (generateCdnUrl req result.id none)),
     ("directUrl", .str (generateCdnUrl req result.id (some result.name)))])

/-- The entry of `data.failed` for a file that was not stored. -/
def failedEntry (name message : String) : JsVal :=
  .obj [("name", .str name), ("error", .str message)]

/-- The outcome of the file at position `i` of a batch, on its own: with a type that is not
allowed it fails without a storage call; otherwise it is uploaded when its storage call
succeeds (left) and fails with the message of the error when the call throws (right). -/
def fileOutcome (drive : Drive) (req : Req) (i : Nat) (file : File) : JsVal ⊕ JsVal :=
  if validateFileType file.mimetype none then
    match drive.uploadFile i file .null with
    | .ok result => .inl (uploadedEntry req result)
    | .error err => .inr (failedEntry file.originalname err.message)
  else .inr (failedEntry file.originalname "File type not allowed")

/-- The outcomes of the files of a batch, in input order. -/
def batchOutcomes (drive : Drive) (req : Req) (files : List File) : List (JsVal ⊕ JsVal) :=
  files.enum.map (fun p => fileOutcome drive req p.1 p.2)

/-! ## Sample inputs -/

/-- A storage oracle in which every file exists and every call succeeds. -/
def driveAllOk : Drive where
  uploadFile := fun _ file _ =>
    .ok { id := "id-" ++ file.originalname, name := file.originalname,
          mimeType := file.mimetype, size := "1", createdAt := "t" }
  getFileInfo := fun fileId =>
    .ok { id := fileId, name := "a.png", mimeType := "image/png", size := "1",
          createdTime := "t", modifiedTime := "t" }
  getFileStream := fun _ => .ok "bytes"
  deleteFile := fun _ => .ok ()
  listFiles := fun _ _ =>
    .ok { files := [{ id := "abc", name := "a.png", mimeType := "image/png", size := some "1",
                      createdTime := "t" }],
          nextPageToken := none }
  getStorageStats := .ok { usage := some "1", limit := some "1099511627776" }

/-- A storage oracle in which no file exists: every call throws an error with code 404 and
the given message. -/
def driveNotFound (message : String) : Drive where
  uploadFile := fun _ _ _ => .error { code := .num 404, message := message }
  getFileInfo := fun _ => .error { code := .num 404, message := message }
  getFileStream := fun _ => .error { code := .num 404, message := message }
  deleteFile := fun _ => .error { code := .num 404, message := message }
  listFiles := fun _ _ => .error { code := .num 404, message := message }
  getStorageStats := .error { code := .num 404, message := message }

/-- A request for the file `abc` with the given URL. -/
def reqAbc (method url : String) : Req :=
  { method := method, path := url, originalUrl := url, params := [("fileId", "abc")] }

/-- A store at capacity: 1000 entries that never expire, under the keys `/`, `/k`, `/kk`, ... -/
def fullStore : NodeCache :=
  { data := (List.range 1000).map
      (fun i => (String.mk ('/' :: List.replicate i 'k'), { t := 0, v := .null })) }

/-- A storage oracle whose upload succeeds at every position but 1, where it throws. -/
def driveFailsSecond : Drive :=
  { driveAllOk with
    uploadFile := fun i file c =>
      if i = 1 then .error { message := "backend unavailable" } else driveAllOk.uploadFile i file c }

/-- A store with two entries for the file `abc` and one for the file listing. -/
def sampleStore : NodeCache :=
  { data := [("/api/file/abc", { t := 0, v := .obj [("success", .bool true)] }),
             ("/api/files", { t := 0, v := .obj [("success", .bool true)] }),
             ("/cdn/abc/pic.png?x=1", { t := 0, v := .obj [("success", .bool false)] })] }

/-- The floor of the logarithm of `n` in base 1024 by repeated division, `fuel` bounding the
number of divisions; `fuel = n` is always enough. -/
def floorLog1024 : Nat → Nat → Nat
  | 0, _ => 0
  | fuel + 1, n => if n < 1024 then 0 else floorLog1024 fuel (n / 1024) + 1

/-- A sample index function for `formatFileSize`: the exact floor of the logarithm in base
1024. The double-precision index agrees with it below `1024^4`, not everywhere above. -/
def exactLogIndex (bytes : Nat) : Nat := floorLog1024 bytes bytes

/-- A PNG file of 10 bytes. -/
def samplePng : File := { originalname := "a.png", mimetype := "image/png", size := 10 }

end GDriveCDN

/-! # Properties -/

namespace GDriveCDN

/-! ## The authentication gate -/

theorem strictEq_ofOption_iff (k : JsVal) (secret : Option String) (hk : k.truthy = true) :
    k.strictEq (JsVal.ofOption secret) = true ↔ ∃ s, k = .str s ∧ secret = some s := by
  cases k <;> cases secret <;> simp_all [JsVal.strictEq, JsVal.ofOption, JsVal.truthy]
  exact eq_comm

/-- C1 (the code departs from the claim): every request to `/api/file/<fileId>`, whatever
its method and whether or not it carries a key, is passed on by the gate mounted on `/api`
(`next` is called, no 401 or 403 is written), because the path `authenticate` sees is
`/file/<fileId>`, which starts with the public prefix `/file/`. -/
theorem apiGate_file_routes_pass (env : Env) (req : Req) (fileId : String) :
    stripMount "/api" ("/api/file/" ++ fileId) = some ("/file/" ++ fileId) ∧
    apiGate env { req with path := "/api/file/" ++ fileId } = some Outcome.next := by
  have hs : stripMount "/api" ("/api/file/" ++ fileId) = some ("/file/" ++ fileId) := by
    have hne : ¬ (("/api/file/" ++ fileId).data.map Char.toLower = "/api".data.map Char.toLower) := by
      intro h
      have := congrArg List.length h
      simp [String.data_append] at this
    have hp : (("/api/file/" ++ fileId).data.take ("/api".data.length + 1)).map Char.toLower =
        ("/api".data ++ ['/']).map Char.toLower := by
      simp [String.data_append]
    have hnext : ¬ ((("/api/file/" ++ fileId).data.drop ("/api".data.length + 1)).head? =
        some '/') := by
      simp [String.data_append]
    unfold stripMount
    rw [if_neg hne, if_pos hp, if_neg hnext]
    simp [String.data_append, String.ext_iff]
  refine ⟨hs, ?_⟩
  simp only [apiGate, hs, Option.map_some']
  simp [authenticate, publicPaths, startsWith, String.data_append]

theorem header_cases (req : Req) (name : String) :
    req.header name = .undefined ∨ ∃ k, req.header name = .str k := by
  unfold Req.header
  cases (req.headers.find? (fun p => p.1 == name)).map (fun p => p.2) with
  | none => exact Or.inl rfl
  | some k => exact Or.inr ⟨k, rfl⟩

/-- C2: on a path that starts with neither `/cdn/` nor `/file/`, `authenticate` does exactly
one of three things, decided by the `x-api-key` header, else the `apiKey` query parameter,
and the secret `API_KEY`. With no key (header absent or empty, query parameter falsy) it
answers 401 with `{success:false, error:'API key is required'}`. A non-empty header decides
alone: equal to the secret gives `next`, anything else 403 with
`{success:false, error:'Invalid API key'}`. With the header absent or empty, a truthy query
parameter decides: the secret as a string gives `next`, anything else 403. Hence `next` is
called only when the header, or with no usable header the query parameter, holds the
secret. The last three parts read the keys off the request itself. -/
theorem authenticate_protected_path (env : Env) (req : Req)
    (hcdn : startsWith req.path "/cdn/" = false) (hfile : startsWith req.path "/file/" = false) :
    (authenticate env req = Outcome.next ∨
      authenticate env req = Outcome.respond 401
        (.obj [("success", .bool false), ("error", .str "API key is required")]) ∨
      authenticate env req = Outcome.respond 403
        (.obj [("success", .bool false), ("error", .str "Invalid API key")])) ∧
    ((req.header "x-api-key" = .undefined ∨ req.header "x-api-key" = .str "") →
      (req.queryParam "apiKey").truthy = false →
      authenticate env req = Outcome.respond 401
        (.obj [("success", .bool false), ("error", .str "API key is required")])) ∧
    (∀ k, req.header "x-api-key" = .str k → k ≠ "" →
      (env.API_KEY = some k → authenticate env req = Outcome.next) ∧
      (env.API_KEY ≠ some k → authenticate env req = Outcome.respond 403
        (.obj [("success", .bool false), ("error", .str "Invalid API key")]))) ∧
    ((req.header "x-api-key" = .undefined ∨ req.header "x-api-key" = .str "") →
      (req.queryParam "apiKey").truthy = true →
      ((∃ k, req.queryParam "apiKey" = .str k ∧ env.API_KEY = some k) →
        authenticate env req = Outcome.next) ∧
      ((¬ ∃ k, req.queryParam "apiKey" = .str k ∧ env.API_KEY = some k) →
        authenticate env req = Outcome.respond 403
          (.obj [("success", .bool false), ("error", .str "Invalid API key")]))) ∧
    (authenticate env req = Outcome.next →
      ∃ s, env.API_KEY = some s ∧ s ≠ "" ∧
        (req.header "x-api-key" = .str s ∨
          ((req.header "x-api-key" = .undefined ∨ req.header "x-api-key" = .str "") ∧
            req.queryParam "apiKey" = .str s))) ∧
    (∀ k wrong : String, k ≠ "" → wrong ≠ "" → wrong ≠ k →
      authenticate { env with API_KEY := some k }
        { req with headers := [("x-api-key", k)] } = Outcome.next ∧
      authenticate { env with API_KEY := some k }
        { req with headers := [], query := [("apiKey", .str k)] } = Outcome.next ∧
      authenticate { env with API_KEY := some k }
        { req with headers := [("x-api-key", wrong)], query := [("apiKey", .str k)] } =
          Outcome.respond 403
            (.obj [("success", .bool false), ("error", .str "Invalid API key")]) ∧
      authenticate { env with API_KEY := some k }
        { req with headers := [], query := [("apiKey", .str wrong)] } =
          Outcome.respond 403
            (.obj [("success", .bool false), ("error", .str "Invalid API key")])) ∧
    authenticate env { req with headers := [], query := [] } = Outcome.respond 401
      (.obj [("success", .bool false), ("error", .str "API key is required")]) := by
  have hpub : publicPaths.any (fun p => startsWith req.path p) = false := by
    simp [publicPaths, hcdn, hfile]
  have hfalsy : (req.header "x-api-key" = .undefined ∨ req.header "x-api-key" = .str "") →
      (req.header "x-api-key").truthy = false := by
    intro h
    rcases h with h | h <;> rw [h] <;> rfl
  have hnokey : (req.header "x-api-key" = .undefined ∨ req.header "x-api-key" = .str "") →
      (req.queryParam "apiKey").truthy = false →
      authenticate env req = Outcome.respond 401
        (.obj [("success", .bool false), ("error", .str "API key is required")]) := by
    intro hh hq
    simp [authenticate, hpub, suppliedKey, JsVal.or, hfalsy hh, hq, errorEnvelope]
  have hheader : ∀ k, req.header "x-api-key" = .str k → k ≠ "" →
      (env.API_KEY = some k → authenticate env req = Outcome.next) ∧
      (env.API_KEY ≠ some k → authenticate env req = Outcome.respond 403
        (.obj [("success", .bool false), ("error", .str "Invalid API key")])) := by
    intro k hk hne
    have ht : (JsVal.str k).truthy = true := by simpa [JsVal.truthy] using hne
    constructor
    · intro hsec
      simp [authenticate, hpub, suppliedKey, JsVal.or, hk, ht, hsec, JsVal.ofOption,
        JsVal.strictEq]
    · intro hsec
      have hs : (JsVal.str k).strictEq (JsVal.ofOption env.API_KEY) = false := by
        cases hA : env.API_KEY with
        | none => rfl
        | some s =>
          have : ¬ k = s := fun h => hsec (by rw [hA, h])
          simpa [JsVal.ofOption, JsVal.strictEq] using this
      simp [authenticate, hpub, suppliedKey, JsVal.or, hk, ht, hs, errorEnvelope]
  have hquery : (req.header "x-api-key" = .undefined ∨ req.header "x-api-key" = .str "") →
      (req.queryParam "apiKey").truthy = true →
      ((∃ k, req.queryParam "apiKey" = .str k ∧ env.API_KEY = some k) →
        authenticate env req = Outcome.next) ∧
      ((¬ ∃ k, req.queryParam "apiKey" = .str k ∧ env.API_KEY = some k) →
        authenticate env req = Outcome.respond 403
          (.obj [("success", .bool false), ("error", .str "Invalid API key")])) := by
    intro hh hq
    have hiff := strictEq_ofOption_iff (req.queryParam "apiKey") env.API_KEY hq
    constructor
    · intro hex
      have hs := hiff.2 hex
      simp [authenticate, hpub, suppliedKey, JsVal.or, hfalsy hh, hq, hs]
    · intro hnex
      have hs : (req.queryParam "apiKey").strictEq (JsVal.ofOption env.API_KEY) = false := by
        cases h : (req.queryParam "apiKey").strictEq (JsVal.ofOption env.API_KEY)
        · rfl
        · exact absurd (hiff.1 h) hnex
      simp [authenticate, hpub, suppliedKey, JsVal.or, hfalsy hh, hq, hs, errorEnvelope]
  have hsplit : (req.header "x-api-key" = .undefined ∨ req.header "x-api-key" = .str "") ∨
      ∃ k, req.header "x-api-key" = .str k ∧ k ≠ "" := by
    rcases header_cases req "x-api-key" with h | ⟨k, h⟩
    · exact Or.inl (Or.inl h)
    · by_cases hk : k = ""
      · subst hk
        exact Or.inl (Or.inr h)
      · exact Or.inr ⟨k, h, hk⟩
  refine ⟨?_, hnokey, hheader, hquery, ?_, ?_, ?_⟩
  · rcases hsplit with hh | ⟨k, hk, hne⟩
    · cases hq : (req.queryParam "apiKey").truthy
      · exact Or.inr (Or.inl (hnokey hh hq))
      · by_cases hex : ∃ k, req.queryParam "apiKey" = .str k ∧ env.API_KEY = some k
        · exact Or.inl ((hquery hh hq).1 hex)
        · exact Or.inr (Or.inr ((hquery hh hq).2 hex))
    · by_cases hsec : env.API_KEY = some k
      · exact Or.inl ((hheader k hk hne).1 hsec)
      · exact Or.inr (Or.inr ((hheader k hk hne).2 hsec))
  · intro hnext
    rcases hsplit with hh | ⟨k, hk, hne⟩
    · cases hq : (req.queryParam "apiKey").truthy
      · rw [hnokey hh hq] at hnext
        cases hnext
      · by_cases hex : ∃ k, req.queryParam "apiKey" = .str k ∧ env.API_KEY = some k
        · obtain ⟨s, hs, hsec⟩ := hex
          have hne : s ≠ "" := by
            intro h0
            rw [hs, h0] at hq
            cases hq
          exact ⟨s, hsec, hne, Or.inr ⟨hh, hs⟩⟩
        · rw [(hquery hh hq).2 hex] at hnext
          cases hnext
    · by_cases hsec : env.API_KEY = some k
      · exact ⟨k, hsec, hne, Or.inl hk⟩
      · rw [(hheader k hk hne).2 hsec] at hnext
        cases hnext
  · intro k wrong hk hw hwk
    have hkw : ¬ k = wrong := fun h => hwk h.symm
    refine ⟨?_, ?_, ?_, ?_⟩
    · simp [authenticate, hpub, suppliedKey, JsVal.or, Req.header, Req.queryParam,
        JsVal.ofOption, JsVal.truthy, JsVal.strictEq, hk]
    · simp [authenticate, hpub, suppliedKey, JsVal.or, Req.header, Req.queryParam,
        JsVal.ofOption, JsVal.truthy, JsVal.strictEq, hk]
    · simp [authenticate, hpub, suppliedKey, JsVal.or, Req.header, Req.queryParam,
        JsVal.ofOption, JsVal.truthy, JsVal.strictEq, hw, hwk, errorEnvelope]
    · simp [authenticate, hpub, suppliedKey, JsVal.or, Req.header, Req.queryParam,
        JsVal.ofOption, JsVal.truthy, JsVal.strictEq, hw, hwk, errorEnvelope]
  · simp [authenticate, hpub, suppliedKey, JsVal.or, Req.header, Req.queryParam,
      JsVal.ofOption, JsVal.truthy, errorEnvelope]

/-- C2 at `GET /files?apiKey=s3cret` with no `x-api-key` header and `API_KEY=s3cret`: the
query parameter is used and `next` is called. -/
theorem authenticate_protected_path_witness :
    authenticate { API_KEY := some "s3cret" }
      { path := "/files", query := [("apiKey", .str "s3cret")] } = Outcome.next :=
  ((authenticate_protected_path { API_KEY := some "s3cret" }
    { path := "/files", query := [("apiKey", .str "s3cret")] } (by decide) (by decide)).2.2.2.1
    (Or.inl rfl) rfl).1 ⟨"s3cret", rfl, rfl⟩

/-! ## Substrings -/

theorem isInfixOf_iff (p s : List Char) : isInfixOf p s = true ↔ p <:+: s := by
  induction s with
  | nil => simp [isInfixOf, List.isEmpty_iff]
  | cons c cs ih =>
    simp only [isInfixOf, Bool.or_eq_true, ih, List.infix_cons_iff, List.isPrefixOf_iff_prefix]

theorem includes_iff (s pat : String) : includes s pat = true ↔ pat.data <:+: s.data :=
  isInfixOf_iff _ _

theorem includes_empty (s : String) : includes s "" = true := by
  rw [includes_iff]
  exact List.nil_infix

theorem includes_append (a pat b : String) : includes (a ++ pat ++ b) pat = true := by
  rw [includes_iff]
  simp only [String.data_append]
  exact List.infix_append _ _ _

/-! ## The store -/

theorem del_data (c : NodeCache) (key : String) :
    (c.del key).data = c.data.filter (fun p => !(p.1 == key)) := rfl

theorem foldl_del_data (pat : String) (ks : List String) (acc : NodeCache) :
    (ks.foldl (fun a key => if includes key pat then a.del key else a) acc).data =
      acc.data.filter (fun e => !(ks.contains e.1 && includes e.1 pat)) ∧
    (ks.foldl (fun a key => if includes key pat then a.del key else a) acc).stdTTL = acc.stdTTL ∧
    (ks.foldl (fun a key => if includes key pat then a.del key else a) acc).maxKeys =
      acc.maxKeys := by
  induction ks generalizing acc with
  | nil => simp
  | cons k ks ih =>
    simp only [List.foldl_cons]
    obtain ⟨h1, h2, h3⟩ := ih (if includes k pat then acc.del k else acc)
    rw [h1, h2, h3]
    by_cases hk : includes k pat = true
    · simp only [hk, if_true, del_data, List.filter_filter]
      refine ⟨List.filter_congr ?_, rfl, rfl⟩
      intro e _
      by_cases hek : e.1 = k
      · simp [hek, hk]
      · simp [hek]
    · simp only [hk, if_false]
      refine ⟨List.filter_congr ?_, rfl, rfl⟩
      intro e _
      by_cases hek : e.1 = k
      · simp [hek, hk]
      · simp [hek]

theorem del_length_le (c : NodeCache) (key : String) : (c.del key).data.length ≤ c.data.length := by
  rw [del_data]
  exact List.length_filter_le _ _

theorem get_length_le (c : NodeCache) (now : Int) (key : String) :
    (c.get now key).2.data.length ≤ c.data.length ∧ (c.get now key).2.maxKeys = c.maxKeys ∧
    (c.get now key).2.stdTTL = c.stdTTL := by
  unfold NodeCache.get
  cases c.lookup key with
  | none => simp
  | some e =>
    simp only
    split
    · exact ⟨del_length_le c key, rfl, rfl⟩
    · simp

theorem find_replace (key : String) (e : Entry) (l : List (String × Entry))
    (h : l.any (fun p => p.1 == key) = true) :
    ((l.map (fun p => if p.1 == key then (key, e) else p)).find? (fun p => p.1 == key)) =
      some (key, e) := by
  induction l with
  | nil => simp at h
  | cons a l ih =>
    by_cases ha : a.1 = key
    · simp [ha]
    · have h1 : l.any (fun p => p.1 == key) = true := by simpa [ha] using h
      simp only [List.map_cons, beq_iff_eq, ha, if_false]
      rw [List.find?_cons_of_neg _ (by simpa using ha)]
      simpa using ih h1

theorem find_append_new (key : String) (e : Entry) (l : List (String × Entry))
    (h : l.any (fun p => p.1 == key) = false) :
    ((l ++ [(key, e)]).find? (fun p => p.1 == key)) = some (key, e) := by
  induction l with
  | nil => simp
  | cons a l ih =>
    have ha : ¬ a.1 = key := by
      intro hk
      simp [hk] at h
    have h1 : l.any (fun p => p.1 == key) = false := by
      simpa [ha] using h
    rw [List.cons_append, List.find?_cons_of_neg _ (by simpa using ha)]
    exact ih h1

theorem set_full (c : NodeCache) (now : Int) (key : String) (v : JsVal) (ttl : Option Int)
    (hmax : -1 < c.maxKeys) (hfull : c.maxKeys ≤ (c.data.length : Int)) :
    c.set now key v ttl = .error NodeCache.cacheFull := by
  unfold NodeCache.set
  rw [if_pos ⟨hmax, hfull⟩]

theorem set_room (c : NodeCache) (now : Int) (key : String) (v : JsVal) (ttl : Option Int)
    (hroom : (c.data.length : Int) < c.maxKeys) :
    ∃ c1, c.set now key v ttl = .ok c1 ∧
      c1.lookup key = some { t := NodeCache.livetime now (ttl.getD c.stdTTL), v := v } ∧
      c1.maxKeys = c.maxKeys ∧ c1.stdTTL = c.stdTTL ∧ c1.data.length ≤ c.data.length + 1 := by
  unfold NodeCache.set
  have hno : ¬ (c.maxKeys > -1 ∧ (c.data.length : Int) ≥ c.maxKeys) := by
    intro h
    omega
  rw [if_neg hno]
  cases hany : c.data.any (fun p => p.1 == key)
  · refine ⟨_, rfl, ?_, rfl, rfl, ?_⟩
    · simp only [NodeCache.lookup]
      rw [find_append_new key _ c.data hany]
      rfl
    · simp
  · refine ⟨_, rfl, ?_, rfl, rfl, ?_⟩
    · simp only [NodeCache.lookup]
      rw [find_replace key _ c.data hany]
      rfl
    · simp

theorem get_live (c : NodeCache) (now : Int) (key : String) (e : Entry)
    (h : c.lookup key = some e) (hlive : e.t = 0 ∨ now ≤ e.t) : c.get now key = (e.v, c) := by
  unfold NodeCache.get
  rw [h]
  have : ¬ (e.t ≠ 0 ∧ e.t < now) := by
    intro h1
    omega
  simp [this]

theorem livetime_live (now ttl : Int) (h : 0 ≤ ttl) :
    NodeCache.livetime now ttl = 0 ∨ now ≤ NodeCache.livetime now ttl := by
  unfold NodeCache.livetime
  by_cases h0 : ttl = 0
  · simp [h0]
  · right
    simp only [h0, if_false]
    omega

/-! ## Responses -/

theorem headers_find_same (hs : List (String × JsVal)) (name : String) (v : JsVal) :
    (hs.filter (fun p => !(p.1 == name)) ++ [(name, v)]).find? (fun p => p.1 == name) =
      some (name, v) := by
  have h : (hs.filter (fun p => !(p.1 == name))).find? (fun p => p.1 == name) = none := by
    rw [List.find?_eq_none]
    intro x hx
    have := (List.mem_filter.1 hx).2
    simpa using this
  rw [List.find?_append, h]
  simp

theorem headers_find_other (hs : List (String × JsVal)) (name other : String) (v : JsVal)
    (h : name ≠ other) :
    (hs.filter (fun p => !(p.1 == other)) ++ [(other, v)]).find? (fun p => p.1 == name) =
      hs.find? (fun p => p.1 == name) := by
  have h1 : ([(other, v)] : List (String × JsVal)).find? (fun p => p.1 == name) = none := by
    simp [Ne.symm h]
  have h2 : (hs.filter (fun p => !(p.1 == other))).find? (fun p => p.1 == name) =
      hs.find? (fun p => p.1 == name) := by
    induction hs with
    | nil => rfl
    | cons a l ih =>
      by_cases ha : a.1 = other
      · have hn : ¬ a.1 = name := fun hh => h (hh.symm.trans ha)
        have hon : (other == name) = false := by simpa using Ne.symm h
        simp [List.filter_cons, List.find?_cons, ha, hn, ih, hon]
      · by_cases hn : a.1 = name
        · have hno : ¬ name = other := h
          simp [List.filter_cons, List.find?_cons, ha, hn, hno]
        · simp [List.filter_cons, List.find?_cons, ha, hn, ih]
  rw [List.find?_append, h2, h1]
  simp

theorem getHeader_set_same (res : Res) (name : String) (v : JsVal) :
    (res.set name v).getHeader name = some v := by
  simp only [Res.getHeader, Res.set, headers_find_same, Option.map_some']

theorem getHeader_set_other (res : Res) (name other : String) (v : JsVal) (h : name ≠ other) :
    (res.set other v).getHeader name = res.getHeader name := by
  simp only [Res.getHeader, Res.set, headers_find_other _ _ _ _ h]

theorem json_sent (r : Run) (now : Int) (b : JsVal)
    (h : r.res.cacheHook = none ∨ (r.cache.data.length : Int) < r.cache.maxKeys) :
    (r.json now b).res.sent = some (.json b) ∧ (r.json now b).threw = r.threw ∧
    (r.json now b).res.statusCode = r.res.statusCode ∧
    (r.json now b).res.headers = r.res.headers ∧ (r.json now b).calls = r.calls := by
  unfold Run.json
  cases hh : r.res.cacheHook with
  | none => simp
  | some kd =>
    obtain ⟨key, d⟩ := kd
    have hroom : (r.cache.data.length : Int) < r.cache.maxKeys := by
      rcases h with h | h
      · rw [hh] at h
        cases h
      · exact h
    obtain ⟨c1, hset, -⟩ := set_room r.cache now key b d hroom
    simp [hset]

theorem clearCache_data (c : NodeCache) (pattern : Option String) :
    (clearCache pattern c).data = c.data.filter (fun e => !includes e.1 (pattern.getD "")) ∧
    (clearCache pattern c).stdTTL = c.stdTTL ∧ (clearCache pattern c).maxKeys = c.maxKeys := by
  cases pattern with
  | none => simp [clearCache, NodeCache.flushAll, includes_empty]
  | some p =>
    by_cases hp : p = ""
    · subst hp
      simp [clearCache, NodeCache.flushAll, includes_empty]
    · have hne : (p != "") = true := by simpa using hp
      simp only [clearCache, hne, if_true, Option.getD_some]
      obtain ⟨h1, h2, h3⟩ := foldl_del_data p c.keys c
      refine ⟨?_, h2, h3⟩
      rw [h1]
      apply List.filter_congr
      intro e he
      have hmem : e.1 ∈ c.keys := List.mem_map.2 ⟨e, he, rfl⟩
      simp [hmem]

/-- C4: `clearCache(p)` leaves in the store exactly the entries whose key does not contain
`p` as a substring, in their order and with their values and expiry times unchanged; an
absent pattern behaves like the empty string, which every key contains, so the store is
then empty. The options of the store are unchanged. -/
theorem clearCache_keeps_exactly_non_matching (c : NodeCache) (pattern : Option String) :
    (clearCache pattern c).data = c.data.filter (fun e => !includes e.1 (pattern.getD "")) ∧
    (∀ e, e ∈ (clearCache pattern c).data ↔
      e ∈ c.data ∧ ¬ (pattern.getD "").data <:+: e.1.data) ∧
    (pattern = none ∨ pattern = some "" → (clearCache pattern c).data = []) ∧
    (clearCache pattern c).stdTTL = c.stdTTL ∧ (clearCache pattern c).maxKeys = c.maxKeys := by
  have hdata := clearCache_data c pattern
  refine ⟨hdata.1, ?_, ?_, hdata.2.1, hdata.2.2⟩
  · intro e
    rw [hdata.1, List.mem_filter]
    have hiff := includes_iff e.1 (pattern.getD "")
    cases hinc : includes e.1 (pattern.getD "")
    · simp [← hiff, hinc]
    · simp [← hiff, hinc]
  · intro h
    rw [hdata.1]
    rcases h with h | h <;> subst h <;> simp [includes_empty]

/-- C4 at the store `sampleStore` and the pattern `abc`: only the file listing is left. -/
theorem clearCache_keeps_exactly_non_matching_witness :
    (clearCache (some "abc") sampleStore).data =
      sampleStore.data.filter (fun e => !includes e.1 "abc") :=
  (clearCache_keeps_exactly_non_matching sampleStore (some "abc")).1

/-! ## The cache middleware -/

theorem cacheMiddleware_next (env : Env) (d : Option Int) (now : Int) (req : Req) (r r1 : Run)
    (h : cacheMiddleware env d now req r = MwResult.next r1) :
    r1 = { r with cache := (r.cache.get now req.originalUrl).2,
                  res := { r.res.set "X-Cache" (.str "MISS") with
                           cacheHook := some (req.originalUrl, d) } } := by
  unfold cacheMiddleware at h
  simp only at h
  split at h
  · split at h <;> cases h
  · injection h with h
    rw [← h]
    rfl

theorem cacheMiddleware_hit (env : Env) (d : Option Int) (now : Int) (req : Req) (r : Run)
    (b : JsVal) (hget : r.cache.get now req.originalUrl = (b, r.cache))
    (hb : b.truthy = true) (hct : (b.prop "contentType").truthy = false)
    (hhook : r.res.cacheHook = none) :
    ∃ r3, cacheMiddleware env d now req r = MwResult.responded r3 ∧
      r3.res.sent = some (.json b) ∧ r3.res.getHeader "X-Cache" = some (.str "HIT") ∧
      r3.calls = r.calls ∧ r3.cache = r.cache := by
  unfold cacheMiddleware
  simp only [hget, hb, hct, if_true, Bool.false_eq_true, if_false]
  refine ⟨_, rfl, ?_, ?_, ?_, ?_⟩
  · simp [Run.json, Run.set, Res.set, hhook]
  · have hh : (Run.json (Run.set (Run.set { r with cache := r.cache } "X-Cache" (.str "HIT"))
        "Cache-Control" (.str ("public, max-age=" ++ maxAge env d))) now b).res.headers =
        ((r.res.set "X-Cache" (.str "HIT")).set "Cache-Control"
          (.str ("public, max-age=" ++ maxAge env d))).headers := by
      simp [Run.json, Run.set, Res.set, hhook]
    simp only [Res.getHeader] at *
    rw [hh]
    have := getHeader_set_other (r.res.set "X-Cache" (.str "HIT")) "X-Cache" "Cache-Control"
      (.str ("public, max-age=" ++ maxAge env d)) (by decide)
    simp only [Res.getHeader] at this
    rw [this]
    exact getHeader_set_same r.res "X-Cache" (.str "HIT")
  · simp [Run.json, Run.set, Res.set, hhook]
  · simp [Run.json, Run.set, Res.set, hhook]

theorem json_sent_stored (r : Run) (now : Int) (key : String) (d : Option Int) (b : JsVal)
    (hhook : r.res.cacheHook = some (key, d)) (hfresh : r.res.sent = none)
    (hemit : (r.json now b).res.sent = some (.json b)) :
    ∃ c1, r.cache.set now key b d = .ok c1 ∧
      r.json now b = { r with cache := c1, res := { r.res with sent := some (.json b) } } := by
  unfold Run.json at hemit ⊢
  simp only [hhook] at hemit ⊢
  cases hset : r.cache.set now key b d with
  | error e =>
    rw [hset] at hemit
    simp only [hfresh] at hemit
    cases hemit
  | ok c1 => exact ⟨c1, rfl, rfl⟩

theorem set_ok_lookup (c c1 : NodeCache) (now : Int) (key : String) (v : JsVal)
    (ttl : Option Int) (h : c.set now key v ttl = .ok c1) :
    c1.lookup key = some { t := NodeCache.livetime now (ttl.getD c.stdTTL), v := v } := by
  unfold NodeCache.set at h
  split at h
  · cases h
  · cases hany : c.data.any (fun p => p.1 == key)
    · simp only [hany, Bool.false_eq_true, if_false] at h
      injection h with h
      subst h
      simp only [NodeCache.lookup]
      rw [find_append_new key _ c.data hany]
      rfl
    · simp only [hany, if_true] at h
      injection h with h
      subst h
      simp only [NodeCache.lookup]
      rw [find_replace key _ c.data hany]
      rfl

theorem json_replayable (r : Run) (now : Int) (key : String) (d : Int) (body : JsVal)
    (hhook : r.res.cacheHook = some (key, some d)) (hd : 0 ≤ d) (hfresh : r.res.sent = none)
    (hb : body.truthy = true) (hct : (body.prop "contentType").truthy = false) :
    Replayable now key (r.json now body) := by
  intro b hsent
  have hbody : b = body := by
    unfold Run.json at hsent
    simp only [hhook] at hsent
    cases hset : r.cache.set now key body (some d) with
    | error e =>
      rw [hset] at hsent
      simp only [hfresh] at hsent
      cases hsent
    | ok c1 =>
      rw [hset] at hsent
      simp only [Option.some.injEq, Payload.json.injEq] at hsent
      exact hsent.symm
  subst hbody
  obtain ⟨c1, hset, hjson⟩ := json_sent_stored r now key (some d) b hhook hfresh hsent
  have hlook := set_ok_lookup _ c1 now key b (some d) hset
  refine ⟨hb, hct, ?_⟩
  rw [hjson]
  exact get_live c1 now key _ hlook (livetime_live now d hd)

theorem envelope_replayable (r : Run) (now : Int) (key : String) (d : Int) (code : Nat)
    (msg : String) (hhook : r.res.cacheHook = some (key, some d)) (hd : 0 ≤ d)
    (hfresh : r.res.sent = none) :
    Replayable now key ((r.status code).json now (errorEnvelope msg)) :=
  json_replayable (r.status code) now key d (errorEnvelope msg) hhook hd hfresh rfl rfl

theorem run_threw_none (r : Run) (h : r.threw = none) : { r with threw := none } = r := by
  cases r
  simp only at h
  subst h
  rfl

theorem try_json_replayable (r : Run) (now : Int) (key : String) (d : Int) (body : JsVal)
    (handler : JsError → Run → Run)
    (hhook : r.res.cacheHook = some (key, some d)) (hd : 0 ≤ d) (hfresh : r.res.sent = none)
    (hthrew : r.threw = none)
    (hb : body.truthy = true) (hct : (body.prop "contentType").truthy = false)
    (hcatch : ∀ e, Replayable now key (handler e r)) :
    Replayable now key ((r.json now body).catchWith handler) := by
  have hj := json_replayable r now key d body hhook hd hfresh hb hct
  unfold Run.json at hj ⊢
  simp only [hhook] at hj ⊢
  cases hset : r.cache.set now key body (some d) with
  | error e =>
    simp only [Run.catchWith]
    rw [run_threw_none r hthrew]
    exact hcatch e
  | ok c1 =>
    rw [hset] at hj
    simp only [Run.catchWith, hthrew]
    exact hj

theorem throw_replayable (r : Run) (now : Int) (key : String) (e : JsError)
    (handler : JsError → Run → Run) (hthrew : r.threw = none)
    (hcatch : ∀ e, Replayable now key (handler e r)) :
    Replayable now key (Run.catchWith { r with threw := some e } handler) := by
  simp only [Run.catchWith]
  rw [run_threw_none r hthrew]
  exact hcatch e

theorem serve_replayable (drive : Drive) (now : Int) (req : Req) (r : Run) (key : String)
    (d : Int) (hhook : r.res.cacheHook = some (key, some d)) (hd : 0 ≤ d)
    (hfresh : r.res.sent = none) (hthrew : r.threw = none) :
    Replayable now key (serve drive now req r) := by
  have hcatch : ∀ (calls : List DriveCall) (e : JsError), Replayable now key
      ((fun (error : JsError) (r2 : Run) =>
        if error.code.strictEq (.num 404) = true then
          (r2.status 404).json now (errorEnvelope "File not found")
        else (r2.status 500).json now (errorEnvelope "Failed to serve file")) e
        { r with calls := calls }) := by
    intro calls e
    simp only
    split
    · exact envelope_replayable { r with calls := calls } now key d 404 _ hhook hd hfresh
    · exact envelope_replayable { r with calls := calls } now key d 500 _ hhook hd hfresh
  unfold serve
  simp only
  cases drive.getFileInfo (req.param "fileId") with
  | error e =>
    exact throw_replayable { r with calls := r.calls ++ [.getFileInfo (req.param "fileId")] }
      now key e _ hthrew (hcatch _)
  | ok fileInfo =>
    simp only
    cases drive.getFileStream (req.param "fileId") with
    | error e =>
      exact throw_replayable
        { r with calls := r.calls ++ [.getFileInfo (req.param "fileId")] ++
            [.getFileStream (req.param "fileId")] }
        now key e _ hthrew (hcatch _)
    | ok stream =>
      intro b hsent
      simp [Run.catchWith, Run.set, hthrew] at hsent

theorem getInfo_replayable (drive : Drive) (formatFileSize : Option Int → String) (now : Int)
    (req : Req) (r : Run) (key : String) (d : Int)
    (hhook : r.res.cacheHook = some (key, some d)) (hd : 0 ≤ d)
    (hfresh : r.res.sent = none) (hthrew : r.threw = none) :
    Replayable now key (getInfo drive formatFileSize now req r) := by
  have hcatch : ∀ (calls : List DriveCall) (e : JsError), Replayable now key
      ((fun (_ : JsError) (r2 : Run) =>
        (r2.status 500).json now (errorEnvelope "Failed to get file info")) e
        { r with calls := calls }) :=
    fun calls _ => envelope_replayable { r with calls := calls } now key d 500 _ hhook hd hfresh
  unfold getInfo
  simp only
  cases drive.getFileInfo (req.param "fileId") with
  | error e =>
    exact throw_replayable { r with calls := r.calls ++ [.getFileInfo (req.param "fileId")] }
      now key e _ hthrew (hcatch _)
  | ok fileInfo =>
    exact try_json_replayable
      { r with calls := r.calls ++ [.getFileInfo (req.param "fileId")] } now key d _ _ hhook hd
      hfresh hthrew rfl rfl (hcatch _)

theorem list_replayable (drive : Drive) (formatFileSize : Option Int → String) (now : Int)
    (req : Req) (r : Run) (key : String) (d : Int)
    (hhook : r.res.cacheHook = some (key, some d)) (hd : 0 ≤ d)
    (hfresh : r.res.sent = none) (hthrew : r.threw = none) :
    Replayable now key (list drive formatFileSize now req r) := by
  have hcatch : ∀ (calls : List DriveCall) (e : JsError), Replayable now key
      ((fun (_ : JsError) (r2 : Run) =>
        (r2.status 500).json now (errorEnvelope "Failed to list files")) e
        { r with calls := calls }) :=
    fun calls _ => envelope_replayable { r with calls := calls } now key d 500 _ hhook hd hfresh
  unfold list
  simp only
  split
  · exact throw_replayable { r with calls := r.calls ++ [.listFiles _] } now key _ _ hthrew
      (hcatch _)
  · exact try_json_replayable { r with calls := r.calls ++ [.listFiles _] } now key d _ _ hhook
      hd hfresh hthrew rfl rfl (hcatch _)

theorem stats_replayable (drive : Drive) (formatFileSize : Option Int → String)
    (percentUsed : Option Int → Option Int → String) (now : Int)
    (req : Req) (r : Run) (key : String) (d : Int)
    (hhook : r.res.cacheHook = some (key, some d)) (hd : 0 ≤ d)
    (hfresh : r.res.sent = none) (hthrew : r.threw = none) :
    Replayable now key (stats drive formatFileSize percentUsed now req r) := by
  have hcatch : ∀ (calls : List DriveCall) (e : JsError), Replayable now key
      ((fun (_ : JsError) (r2 : Run) =>
        (r2.status 500).json now (errorEnvelope "Failed to get stats")) e
        { r with calls := calls }) :=
    fun calls _ => envelope_replayable { r with calls := calls } now key d 500 _ hhook hd hfresh
  unfold stats
  simp only
  cases drive.getStorageStats with
  | error e =>
    exact throw_replayable { r with calls := r.calls ++ [.getStorageStats] } now key e _ hthrew
      (hcatch _)
  | ok quota =>
    simp only
    cases drive.listFiles (some 1000) .undefined with
    | error e =>
      exact throw_replayable
        { r with calls := r.calls ++ [.getStorageStats] ++ [.listFiles (some 1000)] }
        now key e _ hthrew (hcatch _)
    | ok result =>
      exact try_json_replayable
        { r with calls := r.calls ++ [.getStorageStats] ++ [.listFiles (some 1000)] }
        now key d _ _ hhook hd hfresh hthrew rfl rfl (hcatch _)

theorem handler_replayable (route : CachedRoute) (drive : Drive)
    (formatFileSize : Option Int → String) (percentUsed : Option Int → Option Int → String)
    (now : Int) (req : Req) (r : Run) (key : String)
    (hhook : r.res.cacheHook = some (key, some route.duration))
    (hfresh : r.res.sent = none) (hthrew : r.threw = none) :
    Replayable now key (route.handler drive formatFileSize percentUsed now req r) := by
  cases route
  · exact serve_replayable drive now req r key _ hhook (by decide) hfresh hthrew
  · exact serve_replayable drive now req r key _ hhook (by decide) hfresh hthrew
  · exact getInfo_replayable drive formatFileSize now req r key _ hhook (by decide) hfresh hthrew
  · exact list_replayable drive formatFileSize now req r key _ hhook (by decide) hfresh hthrew
  · exact stats_replayable drive formatFileSize percentUsed now req r key _ hhook (by decide)
      hfresh hthrew

/-- C3: on every route wrapped by `cacheMiddleware(d)` (`/cdn/:fileId`,
`/cdn/:fileId/:filename`, `/api/file/:fileId`, `/api/files`, `/api/stats`), for every
request URL and every body `b`, whatever the status the handler set and whatever the
storage client did: when a request misses the cache (the middleware tags the response
`X-Cache: MISS` and calls `next`) and the handler of the route emits `b` through `res.json`,
a request with the same `originalUrl` that follows at once is answered from the cache with
body `b` and `X-Cache: HIT`; the middleware does not call `next`, so the handler is not run,
and no storage call is made whatever the storage client would answer. -/
theorem cached_route_replays_body (route : CachedRoute) (env : Env) (drive other : Drive)
    (formatFileSize : Option Int → String) (percentUsed : Option Int → Option Int → String)
    (now : Int) (req next : Req) (r r1 : Run) (b : JsVal)
    (hfresh : r.res.sent = none) (hthrew : r.threw = none)
    (hmiss : cacheMiddleware env (some route.duration) now req r = MwResult.next r1)
    (hemit : (route.handler drive formatFileSize percentUsed now req r1).res.sent =
      some (.json b))
    (hurl : next.originalUrl = req.originalUrl) :
    r1.res.getHeader "X-Cache" = some (.str "MISS") ∧
    ∃ r3, cacheMiddleware env (some route.duration) now next
        { route.handler drive formatFileSize percentUsed now req r1 with res := {} } =
          MwResult.responded r3 ∧
      r3.res.sent = some (.json b) ∧ r3.res.getHeader "X-Cache" = some (.str "HIT") ∧
      r3.calls = (route.handler drive formatFileSize percentUsed now req r1).calls ∧
      cachedRoute env (some route.duration)
        (route.handler other formatFileSize percentUsed) now next
        { route.handler drive formatFileSize percentUsed now req r1 with res := {} } = r3 := by
  have hr1 := cacheMiddleware_next env (some route.duration) now req r r1 hmiss
  have hhook : r1.res.cacheHook = some (req.originalUrl, some route.duration) := by
    rw [hr1]
  have hfresh1 : r1.res.sent = none := by
    rw [hr1]
    simpa [Res.set] using hfresh
  have hthrew1 : r1.threw = none := by
    rw [hr1]
    exact hthrew
  obtain ⟨hb, hct, hget⟩ := handler_replayable route drive formatFileSize percentUsed now req r1
    req.originalUrl hhook hfresh1 hthrew1 b hemit
  refine ⟨?_, ?_⟩
  · rw [hr1]
    exact getHeader_set_same r.res "X-Cache" (.str "MISS")
  · obtain ⟨r3, h3, hs, hx, hc, -⟩ := cacheMiddleware_hit env (some route.duration) now next
      { route.handler drive formatFileSize percentUsed now req r1 with res := {} } b
      (by rw [hurl]; exact hget) hb hct rfl
    refine ⟨r3, h3, hs, hx, hc, ?_⟩
    simp only [cachedRoute, h3]

/-- C3 at `GET /cdn/abc` on an empty cache with a storage client that reports the file
missing: the 404 envelope that `serve` emits is replayed as a cache hit to the next
request, without a storage call. -/
theorem cached_route_replays_body_witness :
    ∃ r3, cacheMiddleware {} (some 86400) 0 (reqAbc "GET" "/cdn/abc")
        { serve (driveNotFound "gone") 0 (reqAbc "GET" "/cdn/abc")
            { res := { headers := [("X-Cache", .str "MISS")],
                       cacheHook := some ("/cdn/abc", some 86400) } } with res := {} } =
          MwResult.responded r3 ∧
      r3.res.sent = some (.json (.obj [("success", .bool false),
        ("error", .str "File not found")])) ∧
      r3.res.getHeader "X-Cache" = some (.str "HIT") ∧
      r3.calls = [DriveCall.getFileInfo "abc"] ∧
      cachedRoute {} (some 86400) (serve driveAllOk) 0 (reqAbc "GET" "/cdn/abc")
        { serve (driveNotFound "gone") 0 (reqAbc "GET" "/cdn/abc")
            { res := { headers := [("X-Cache", .str "MISS")],
                       cacheHook := some ("/cdn/abc", some 86400) } } with res := {} } = r3 :=
  (cached_route_replays_body CachedRoute.cdn {} (driveNotFound "gone") driveAllOk
    (fun _ => "") (fun _ _ => "") 0 (reqAbc "GET" "/cdn/abc") (reqAbc "GET" "/cdn/abc") {}
    { res := { headers := [("X-Cache", .str "MISS")],
               cacheHook := some ("/cdn/abc", some 86400) } }
    (.obj [("success", .bool false), ("error", .str "File not found")])
    rfl rfl rfl rfl rfl).2

/-! ## The handlers -/

theorem cacheMiddleware_absent (env : Env) (d : Option Int) (now : Int) (req : Req) (r : Run)
    (h : r.cache.lookup req.originalUrl = none) :
    cacheMiddleware env d now req r =
      MwResult.next { r with res := { r.res.set "X-Cache" (.str "MISS") with
                                      cacheHook := some (req.originalUrl, d) } } := by
  simp [cacheMiddleware, NodeCache.get, h, JsVal.truthy, Run.set]

theorem serve_success (drive : Drive) (now : Int) (req : Req) (r : Run) (fileInfo : FileInfo)
    (stream : String) (hinfo : drive.getFileInfo (req.param "fileId") = .ok fileInfo)
    (hstream : drive.getFileStream (req.param "fileId") = .ok stream) (hthrew : r.threw = none) :
    (serve drive now req r).res.sent = some (.piped stream) ∧
    (serve drive now req r).cache = r.cache ∧
    (serve drive now req r).calls =
      r.calls ++ [.getFileInfo (req.param "fileId"), .getFileStream (req.param "fileId")] ∧
    ((serve drive now req r).res.headers.find? (fun p => p.1 == "X-Cache")) =
      r.res.headers.find? (fun p => p.1 == "X-Cache") := by
  refine ⟨?_, ?_, ?_, ?_⟩
  · simp [serve, hinfo, hstream, Run.catchWith, Run.set, hthrew]
  · simp [serve, hinfo, hstream, Run.catchWith, Run.set, hthrew]
  · simp [serve, hinfo, hstream, Run.catchWith, Run.set, hthrew]
  simp only [serve, hinfo, hstream, Run.catchWith, Run.set, Res.set, hthrew]
  simp only [headers_find_other _ "X-Cache" "Access-Control-Allow-Origin" _ (by decide),
    headers_find_other _ "X-Cache" "Cache-Control" _ (by decide),
    headers_find_other _ "X-Cache" "Content-Disposition" _ (by decide),
    headers_find_other _ "X-Cache" "Content-Type" _ (by decide)]

theorem cdnRoute_absent (env : Env) (drive : Drive) (now : Int) (req : Req) (r : Run)
    (h : r.cache.lookup req.originalUrl = none) :
    cdnRoute env drive now req r =
      serve drive now req { r with res := { r.res.set "X-Cache" (.str "MISS") with
        cacheHook := some (req.originalUrl, some 86400) } } := by
  simp only [cdnRoute, cachedRoute, cacheMiddleware_absent env _ now req r h]

/-- C5 (the code departs from the claim): when `GET /cdn/:fileId` misses the cache and
`serve` streams the file successfully, the stream is piped to the client and nothing is
stored: the cache is left exactly as it was, so a later request for the same URL, at any
time, is tagged `X-Cache: MISS` again and calls the storage client twice more. -/
theorem cdnRoute_success_stores_nothing (env : Env) (drive : Drive) (now later : Int)
    (req : Req) (r : Run) (fileInfo : FileInfo) (stream : String)
    (hinfo : drive.getFileInfo (req.param "fileId") = .ok fileInfo)
    (hstream : drive.getFileStream (req.param "fileId") = .ok stream)
    (habsent : r.cache.lookup req.originalUrl = none) (hthrew : r.threw = none) :
    (cdnRoute env drive now req r).res.sent = some (.piped stream) ∧
    (cdnRoute env drive now req r).res.getHeader "X-Cache" = some (.str "MISS") ∧
    (cdnRoute env drive now req r).cache = r.cache ∧
    (cdnRoute env drive later req { cdnRoute env drive now req r with res := {} }).res.getHeader
      "X-Cache" = some (.str "MISS") ∧
    (cdnRoute env drive later req { cdnRoute env drive now req r with res := {} }).calls =
      (cdnRoute env drive now req r).calls ++
        [.getFileInfo (req.param "fileId"), .getFileStream (req.param "fileId")] := by
  have hfirst : cdnRoute env drive now req r =
      serve drive now req { r with res := { r.res.set "X-Cache" (.str "MISS") with
        cacheHook := some (req.originalUrl, some 86400) } } :=
    cdnRoute_absent env drive now req r habsent
  obtain ⟨h1, h2, h3, h4⟩ := serve_success drive now req
    { r with res := { r.res.set "X-Cache" (.str "MISS") with
        cacheHook := some (req.originalUrl, some 86400) } } fileInfo stream hinfo hstream hthrew
  have hmissTag : ∀ res : Res, ((res.set "X-Cache" (.str "MISS")).headers.find?
      (fun p => p.1 == "X-Cache")).map (fun p => p.2) = some (.str "MISS") :=
    fun res => getHeader_set_same res "X-Cache" (.str "MISS")
  have hcache : (cdnRoute env drive now req r).cache = r.cache := by rw [hfirst, h2]
  have hthrew1 : (cdnRoute env drive now req r).threw = none := by
    rw [hfirst]
    simp [serve, hinfo, hstream, Run.catchWith, Run.set, hthrew]
  have habsent2 : ({ cdnRoute env drive now req r with res := {} } : Run).cache.lookup
      req.originalUrl = none := by
    simp only [hcache, habsent]
  have hsecond : cdnRoute env drive later req { cdnRoute env drive now req r with res := {} } =
      serve drive later req
        { ({ cdnRoute env drive now req r with res := {} } : Run) with
          res := { ({} : Res).set "X-Cache" (.str "MISS") with
            cacheHook := some (req.originalUrl, some 86400) } } :=
    cdnRoute_absent env drive later req _ habsent2
  obtain ⟨-, -, k3, k4⟩ := serve_success drive later req
    { ({ cdnRoute env drive now req r with res := {} } : Run) with
      res := { ({} : Res).set "X-Cache" (.str "MISS") with
        cacheHook := some (req.originalUrl, some 86400) } } fileInfo stream hinfo hstream hthrew1
  refine ⟨?_, ?_, hcache, ?_, ?_⟩
  · rw [hfirst, h1]
  · rw [hfirst]
    simp only [Res.getHeader, h4]
    exact hmissTag r.res
  · rw [hsecond]
    simp only [Res.getHeader, k4]
    exact hmissTag {}
  · rw [hsecond, k3]

/-- C5 at `GET /cdn/abc` on an empty cache with a storage client that serves the file: the
cache is still empty after the file was streamed. -/
theorem cdnRoute_success_stores_nothing_witness :
    (cdnRoute {} driveAllOk 0 (reqAbc "GET" "/cdn/abc") {}).cache = ({} : Run).cache :=
  (cdnRoute_success_stores_nothing {} driveAllOk 0 1 (reqAbc "GET" "/cdn/abc") {}
    { id := "abc", name := "a.png", mimeType := "image/png", size := "1",
      createdTime := "t", modifiedTime := "t" } "bytes" rfl rfl rfl rfl).2.2.1

/-- C6 (the code departs from the claim): when the storage client throws an error with code
404, only `serve` answers 404 with `{success:false, error:'File not found'}`; `getInfo`,
`download` and `delete` answer 500 with their generic envelope. The response is sent when
`res.json` is not patched or the store has room. -/
theorem not_found_is_500_except_serve (drive : Drive) (formatFileSize : Option Int → String)
    (now : Int) (req : Req) (r : Run) (e : JsError) (hcode : e.code = .num 404)
    (hsend : r.res.cacheHook = none ∨ (r.cache.data.length : Int) < r.cache.maxKeys) :
    (drive.getFileInfo (req.param "fileId") = .error e →
      ((serve drive now req r).res.statusCode = 404 ∧
        (serve drive now req r).res.sent = some (.json
          (.obj [("success", .bool false), ("error", .str "File not found")]))) ∧
      ((getInfo drive formatFileSize now req r).res.statusCode = 500 ∧
        (getInfo drive formatFileSize now req r).res.sent = some (.json
          (.obj [("success", .bool false), ("error", .str "Failed to get file info")]))) ∧
      ((download drive now req r).res.statusCode = 500 ∧
        (download drive now req r).res.sent = some (.json
          (.obj [("success", .bool false), ("error", .str "Failed to download file")])))) ∧
    (drive.deleteFile (req.param "fileId") = .error e →
      (delete drive now req r).res.statusCode = 500 ∧
      (delete drive now req r).res.sent = some (.json
        (.obj [("success", .bool false), ("error", .str "Failed to delete file")]))) := by
  have hj : ∀ (calls : List DriveCall) (code : Nat) (body : JsVal),
      (Run.json (Run.status { r with calls := calls, threw := none } code) now body).res.sent =
        some (.json body) ∧
      (Run.json (Run.status { r with calls := calls, threw := none } code) now
        body).res.statusCode = code := by
    intro calls code body
    obtain ⟨h1, -, h3, -⟩ := json_sent (Run.status { r with calls := calls, threw := none } code)
      now body (by simpa [Run.status, Res.status] using hsend)
    exact ⟨h1, h3⟩
  refine ⟨fun hinfo => ⟨?_, ?_, ?_⟩, fun hdel => ?_⟩
  · have := hj (r.calls ++ [.getFileInfo (req.param "fileId")]) 404 (errorEnvelope "File not found")
    simpa [serve, hinfo, Run.catchWith, hcode, JsVal.strictEq, errorEnvelope] using
      And.symm this
  · have := hj (r.calls ++ [.getFileInfo (req.param "fileId")]) 500
      (errorEnvelope "Failed to get file info")
    simpa [getInfo, hinfo, Run.catchWith, errorEnvelope] using And.symm this
  · have := hj (r.calls ++ [.getFileInfo (req.param "fileId")]) 500
      (errorEnvelope "Failed to download file")
    simpa [download, hinfo, Run.catchWith, errorEnvelope] using And.symm this
  · have := hj (r.calls ++ [.deleteFile (req.param "fileId")]) 500
      (errorEnvelope "Failed to delete file")
    simpa [delete, hdel, Run.catchWith, errorEnvelope] using And.symm this

/-- C6 at `GET /api/file/abc` for a file the storage client reports missing: `getInfo`
answers 500. -/
theorem not_found_is_500_except_serve_witness :
    (getInfo (driveNotFound "File not found: abc") (fun _ => "") 0
      (reqAbc "GET" "/api/file/abc") {}).res.statusCode = 500 :=
  ((not_found_is_500_except_serve (driveNotFound "File not found: abc") (fun _ => "") 0
    (reqAbc "GET" "/api/file/abc") {} { code := .num 404, message := "File not found: abc" }
    rfl (Or.inl rfl)).1 rfl).2.1.1

theorem lookup_none_of_filtered (c : NodeCache) (q : String × Entry → Bool) (key : String)
    (h : ∀ e : String × Entry, e.1 = key → q e = false) :
    ((c.data.filter q).find? (fun p => p.1 == key)) = none := by
  rw [List.find?_eq_none]
  intro x hx
  have hq := (List.mem_filter.1 hx).2
  intro hk
  have := h x (by simpa using hk)
  rw [this] at hq
  cases hq

/-- C7: after `delete` has completed successfully on the route `DELETE /api/file/:fileId`
(the storage call succeeded and the success envelope was sent), the cache holds no entry
whose key contains the route parameter `fileId`; in particular no entry keyed
`/api/file/<fileId>`, `/cdn/<fileId>` or `/cdn/<fileId>/<filename>`, with any query string
appended. Entries whose key does not contain `fileId` are all kept. -/
theorem delete_clears_urls_of_file (drive : Drive) (now : Int) (req : Req) (r : Run)
    (hok : drive.deleteFile (req.param "fileId") = .ok ())
    (hhook : r.res.cacheHook = none) (hthrew : r.threw = none) :
    (delete drive now req r).threw = none ∧
    (delete drive now req r).res.sent = some (.json
      (.obj [("success", .bool true), ("message", .str "File deleted successfully")])) ∧
    (∀ key, includes key (req.param "fileId") = true →
      (delete drive now req r).cache.lookup key = none) ∧
    (∀ query filename : String,
      (delete drive now req r).cache.lookup ("/api/file/" ++ req.param "fileId" ++ query) = none ∧
      (delete drive now req r).cache.lookup ("/cdn/" ++ req.param "fileId" ++ query) = none ∧
      (delete drive now req r).cache.lookup
        ("/cdn/" ++ req.param "fileId" ++ ("/" ++ filename ++ query)) = none) ∧
    (delete drive now req r).cache.data =
      r.cache.data.filter (fun e => !includes e.1 (req.param "fileId")) := by
  have hcache : (delete drive now req r).cache = clearCache (some (req.param "fileId")) r.cache := by
    simp [delete, hok, Run.catchWith, Run.json, hhook, hthrew]
  have hdata := (clearCache_data r.cache (some (req.param "fileId"))).1
  simp only [Option.getD_some] at hdata
  have hgone : ∀ key, includes key (req.param "fileId") = true →
      (delete drive now req r).cache.lookup key = none := by
    intro key hkey
    simp only [NodeCache.lookup, hcache, hdata]
    rw [lookup_none_of_filtered r.cache _ key]
    · rfl
    · intro e he
      simp [he, hkey]
  refine ⟨?_, ?_, hgone, ?_, ?_⟩
  · simp [delete, hok, Run.catchWith, Run.json, hhook, hthrew]
  · simp [delete, hok, Run.catchWith, Run.json, hhook, hthrew]
  · intro query filename
    exact ⟨hgone _ (includes_append _ _ _), hgone _ (includes_append _ _ _),
      hgone _ (includes_append _ _ _)⟩
  · rw [hcache, hdata]

/-- C7 at `DELETE /api/file/abc` on the store `sampleStore`: the entry keyed
`/cdn/abc/pic.png?x=1` is gone. -/
theorem delete_clears_urls_of_file_witness :
    (delete driveAllOk 0 (reqAbc "DELETE" "/api/file/abc")
      { cache := sampleStore }).cache.lookup "/cdn/abc/pic.png?x=1" = none :=
  (delete_clears_urls_of_file driveAllOk 0 (reqAbc "DELETE" "/api/file/abc")
    { cache := sampleStore } rfl rfl rfl).2.2.1 "/cdn/abc/pic.png?x=1" (by decide)

/-- C8 (the code departs from the claim): whatever `NODE_ENV` is, when the storage upload
throws an error `e`, `upload` answers 500 with a body whose `message` field is `e.message`,
and `uploadMultiple` answers 201 with `e.message` as the `error` of the failed file; two
errors that differ only in their message give different bodies. -/
theorem upload_error_message_reaches_client (env : Env) (drive : Drive)
    (formatFileSize : Option Int → String) (now : Int) (req : Req) (r : Run) (file : File)
    (e : JsError) (htype : validateFileType file.mimetype none = true)
    (hhook : r.res.cacheHook = none) (hthrew : r.threw = none) :
    (req.file = some file → (file.size : Int) ≤ parseIntOr env.MAX_FILE_SIZE 50 * 1024 * 1024 →
      drive.uploadFile 0 file ((req.body.prop "name").or .null) = .error e →
      (upload env drive formatFileSize now req r).res.statusCode = 500 ∧
      (upload env drive formatFileSize now req r).res.sent = some (.json
        (.obj [("success", .bool false), ("error", .str "Failed to upload file"),
               ("message", .str e.message)]))) ∧
    (req.files = some [file] → drive.uploadFile 0 file .null = .error e →
      (uploadMultiple drive now req r).res.statusCode = 201 ∧
      (uploadMultiple drive now req r).res.sent = some (.json
        (.obj [("success", .bool true),
               ("data", .obj [("uploaded", .arr []),
                  ("failed", .arr [.obj [("name", .str file.originalname),
                                         ("error", .str e.message)]]),
                  ("total", .num 1), ("successful", .num 0)])]))) := by
  refine ⟨fun hfile hsize herr => ?_, fun hfiles herr => ?_⟩
  · have hs : ¬ ((file.size : Int) > parseIntOr env.MAX_FILE_SIZE 50 * 1024 * 1024) := by omega
    simp [upload, hfile, hs, htype, herr, Run.catchWith, Run.json, Run.status, Res.status, hhook]
  · simp [uploadMultiple, hfiles, uploadLoop, htype, herr, Run.catchWith, Run.json, Run.status,
      Res.status, hhook, hthrew]

/-- C8 at `POST /api/upload` with `NODE_ENV=production`, a PNG file and a storage client
that throws: the text of the storage error is in the body. -/
theorem upload_error_message_reaches_client_witness :
    (upload { NODE_ENV := some "production" } (driveNotFound "quota exceeded for project 42")
      (fun _ => "") 0 { method := "POST", file := some samplePng } {}).res.sent = some (.json
        (.obj [("success", .bool false), ("error", .str "Failed to upload file"),
               ("message", .str "quota exceeded for project 42")])) :=
  ((upload_error_message_reaches_client { NODE_ENV := some "production" }
    (driveNotFound "quota exceeded for project 42") (fun _ => "") 0
    { method := "POST", file := some samplePng } {} samplePng
    { code := .num 404, message := "quota exceeded for project 42" } (by decide) rfl rfl).1
    rfl (by decide) rfl).2

/-! ## Capacity of the store -/

theorem fullStore_length : fullStore.data.length = 1000 := by
  simp [fullStore]

theorem fullStore_lookup_new : fullStore.lookup "/cdn/new" = none := by
  simp only [NodeCache.lookup, fullStore, Option.map_eq_none', List.find?_eq_none, List.mem_map,
    List.mem_range]
  rintro x ⟨i, -, rfl⟩
  simp only [beq_iff_eq, String.ext_iff]
  intro h
  cases i with
  | zero => simp at h
  | succ n => simp [List.replicate_succ] at h

/-- C9 (as stated, refuted): the store `fullStore` holds 1000 entries that never expire and
none under `/cdn/new`; storing a body for `/cdn/new` through the patched `res.json` throws
`ECACHEFULL`, the key is not stored, and the body is not sent. -/
theorem full_store_rejects_new_key :
    fullStore.maxKeys = 1000 ∧ fullStore.data.length = 1000 ∧
    fullStore.lookup "/cdn/new" = none ∧
    (Run.json { cache := fullStore, res := { cacheHook := some ("/cdn/new", some 86400) } } 0
      (.obj [("success", .bool true)])).threw = some NodeCache.cacheFull ∧
    (Run.json { cache := fullStore, res := { cacheHook := some ("/cdn/new", some 86400) } } 0
      (.obj [("success", .bool true)])).cache.lookup "/cdn/new" = none ∧
    (Run.json { cache := fullStore, res := { cacheHook := some ("/cdn/new", some 86400) } } 0
      (.obj [("success", .bool true)])).res.sent = none := by
  have hset := set_full fullStore 0 "/cdn/new" (.obj [("success", .bool true)]) (some 86400)
    (by decide) (by rw [fullStore_length]; decide)
  refine ⟨rfl, fullStore_length, fullStore_lookup_new, ?_, ?_, ?_⟩
  · simp [Run.json, hset]
  · simp only [Run.json, hset]
    exact fullStore_lookup_new
  · simp [Run.json, hset]

/-- C9 (amended): with `maxKeys` 1000, storing through the patched `res.json` or
`res.sendCached` never leaves more than 1000 entries in a store that held at most 1000; when
the store already holds 1000 entries, `cache.set` throws `ECACHEFULL` for every key and the
store is left exactly as it was: no entry, expired or live, is evicted and the key is not
added. -/
theorem store_capacity_no_eviction (r : Run) (now : Int) (key : String) (d : Option Int)
    (b data contentType : JsVal) (hhook : r.res.cacheHook = some (key, d))
    (hmax : r.cache.maxKeys = 1000) (hlen : r.cache.data.length ≤ 1000) :
    (r.json now b).cache.data.length ≤ 1000 ∧
    (r.sendCached now data contentType).cache.data.length ≤ 1000 ∧
    (r.cache.data.length = 1000 →
      r.cache.set now key b d = .error NodeCache.cacheFull ∧
      (r.json now b).cache = r.cache ∧
      (r.sendCached now data contentType).cache = r.cache) := by
  have hbound : ∀ v : JsVal, ∀ c1, r.cache.set now key v d = .ok c1 → c1.data.length ≤ 1000 := by
    intro v c1 hset
    by_cases hfull : r.cache.data.length = 1000
    · rw [set_full r.cache now key v d (by rw [hmax]; decide) (by rw [hmax]; omega)] at hset
      cases hset
    · obtain ⟨c2, h2, -, -, -, hl⟩ := set_room r.cache now key v d (by rw [hmax]; omega)
      rw [h2] at hset
      injection hset with hset
      subst hset
      omega
  refine ⟨?_, ?_, ?_⟩
  · simp only [Run.json, hhook]
    cases hset : r.cache.set now key b d with
    | error e => exact hlen
    | ok c1 => exact hbound b c1 hset
  · simp only [Run.sendCached, hhook]
    cases hset : r.cache.set now key (.obj [("data", data), ("contentType", contentType)]) d with
    | error e => exact hlen
    | ok c1 => exact hbound _ c1 hset
  · intro hfull
    have hs : ∀ v : JsVal, r.cache.set now key v d = .error NodeCache.cacheFull := fun v =>
      set_full r.cache now key v d (by rw [hmax]; decide) (by rw [hmax]; omega)
    refine ⟨hs b, ?_, ?_⟩
    · simp [Run.json, hhook, hs]
    · simp [Run.sendCached, hhook, hs]

/-- C9 (amended) at the store `fullStore` and the new key `/cdn/new`: the store is
unchanged by the patched `res.json`. -/
theorem store_capacity_no_eviction_witness :
    (Run.json { cache := fullStore, res := { cacheHook := some ("/cdn/new", some 86400) } } 0
      (.obj [("success", .bool true)])).cache = fullStore :=
  ((store_capacity_no_eviction
    { cache := fullStore, res := { cacheHook := some ("/cdn/new", some 86400) } } 0 "/cdn/new"
    (some 86400) (.obj [("success", .bool true)]) .null .null rfl rfl
    (le_of_eq fullStore_length)).2.2 fullStore_length).2.1

/-! ## Batch upload -/

theorem outcomes_length (l : List (JsVal ⊕ JsVal)) :
    (l.filterMap Sum.getLeft?).length + (l.filterMap Sum.getRight?).length = l.length := by
  induction l with
  | nil => rfl
  | cons a l ih =>
    cases a with
    | inl v =>
      simp only [List.filterMap_cons, Sum.getLeft?_inl, Sum.getRight?_inl, List.length_cons]
      omega
    | inr v =>
      simp only [List.filterMap_cons, Sum.getLeft?_inr, Sum.getRight?_inr, List.length_cons]
      omega

theorem uploadLoop_eq (drive : Drive) (req : Req) (files : List File) (i : Nat) (acc : Batch) :
    (uploadLoop drive req i files acc).results = acc.results ++
      ((files.enumFrom i).map (fun p => fileOutcome drive req p.1 p.2)).filterMap Sum.getLeft? ∧
    (uploadLoop drive req i files acc).errors = acc.errors ++
      ((files.enumFrom i).map (fun p => fileOutcome drive req p.1 p.2)).filterMap Sum.getRight? ∧
    (uploadLoop drive req i files acc).calls = acc.calls ++
      (files.filter (fun f => validateFileType f.mimetype none)).map DriveCall.uploadFile := by
  induction files generalizing i acc with
  | nil => simp [uploadLoop]
  | cons file rest ih =>
    cases hv : validateFileType file.mimetype none
    · simp only [uploadLoop, hv, Bool.not_false, if_true]
      obtain ⟨h1, h2, h3⟩ := ih (i + 1) { acc with errors := acc.errors ++
        [.obj [("name", .str file.originalname), ("error", .str "File type not allowed")]] }
      rw [h1, h2, h3]
      simp [List.enumFrom_cons, fileOutcome, hv, failedEntry]
    · cases hu : drive.uploadFile i file .null with
      | ok result =>
        simp only [uploadLoop, hv, Bool.not_true, Bool.false_eq_true, if_false, hu]
        obtain ⟨h1, h2, h3⟩ := ih (i + 1)
          { acc with calls := acc.calls ++ [.uploadFile file],
                     results := acc.results ++ [.obj (result.fields ++
                       [("url", .str (generateCdnUrl req result.id none)),
                        ("directUrl",
                          .str (generateCdnUrl req result.id (some result.name)))])] }
        rw [h1, h2, h3]
        simp [List.enumFrom_cons, fileOutcome, hv, hu, uploadedEntry]
      | error err =>
        simp only [uploadLoop, hv, Bool.not_true, Bool.false_eq_true, if_false, hu]
        obtain ⟨h1, h2, h3⟩ := ih (i + 1)
          { acc with calls := acc.calls ++ [.uploadFile file],
                     errors := acc.errors ++
                       [.obj [("name", .str file.originalname), ("error", .str err.message)]] }
        rw [h1, h2, h3]
        simp [List.enumFrom_cons, fileOutcome, hv, hu, failedEntry]

/-- C10: for a non-empty list of files and any outcomes of the storage calls,
`uploadMultiple` answers 201 with `success: true`; `data.uploaded` and `data.failed` are, in
input order, the files whose own outcome is an upload and the files whose own outcome is a
failure, so every file is in exactly one of them, `uploaded.length + failed.length = total`
is the number of files and `successful = uploaded.length`; a file is uploaded exactly when
its type is allowed and its storage call succeeded; the storage client is called for the
files of an allowed type only, in order; and the outcome of a file depends on its own
storage call only. -/
theorem uploadMultiple_accounts_for_every_file (drive : Drive) (now : Int) (req : Req)
    (r : Run) (files : List File) (hfiles : req.files = some files) (hne : files ≠ [])
    (hhook : r.res.cacheHook = none) (hthrew : r.threw = none) :
    (uploadMultiple drive now req r).res.statusCode = 201 ∧
    (uploadMultiple drive now req r).res.sent = some (.json
      (.obj [("success", .bool true),
        ("data", .obj [
          ("uploaded", .arr ((batchOutcomes drive req files).filterMap Sum.getLeft?)),
          ("failed", .arr ((batchOutcomes drive req files).filterMap Sum.getRight?)),
          ("total", .num files.length),
          ("successful",
            .num ((batchOutcomes drive req files).filterMap Sum.getLeft?).length)])])) ∧
    ((batchOutcomes drive req files).filterMap Sum.getLeft?).length +
      ((batchOutcomes drive req files).filterMap Sum.getRight?).length = files.length ∧
    (batchOutcomes drive req files).length = files.length ∧
    (∀ i file, (fileOutcome drive req i file).isLeft = true ↔
      validateFileType file.mimetype none = true ∧
      ∃ result, drive.uploadFile i file .null = .ok result) ∧
    (uploadMultiple drive now req r).calls = r.calls ++
      (files.filter (fun f => validateFileType f.mimetype none)).map DriveCall.uploadFile ∧
    (∀ (other : Drive) i file, other.uploadFile i file .null = drive.uploadFile i file .null →
      fileOutcome other req i file = fileOutcome drive req i file) := by
  obtain ⟨h1, h2, h3⟩ := uploadLoop_eq drive req files 0 {}
  have hlen : (files.length == 0) = false := by
    cases files with
    | nil => exact absurd rfl hne
    | cons a l => rfl
  have hout : (batchOutcomes drive req files).length = files.length := by
    simp [batchOutcomes, List.enum]
  refine ⟨?_, ?_, ?_, hout, ?_, ?_, ?_⟩
  · simp [uploadMultiple, hfiles, hlen, Run.catchWith, Run.json, Run.status, Res.status, hhook,
      hthrew]
  · simp only [uploadMultiple, hfiles, hlen, Run.catchWith, Run.json, Run.status, Res.status,
      hhook, hthrew, h1, h2, batchOutcomes, List.enum]
    simp
  · rw [outcomes_length, hout]
  · intro i file
    unfold fileOutcome
    cases hv : validateFileType file.mimetype none
    · simp
    · cases hu : drive.uploadFile i file .null <;> simp
  · simp only [uploadMultiple, hfiles, hlen, Run.catchWith, Run.json, Run.status, Res.status,
      hhook, hthrew, h3]
    simp
  · intro other i file h
    simp only [fileOutcome, h]

/-- C10 at a batch of a PNG, a second PNG whose upload throws, and a text file: the first is
uploaded and the other two fail, the storage client being called for the two PNGs only. -/
theorem uploadMultiple_accounts_for_every_file_witness :
    (uploadMultiple driveFailsSecond 0
      { method := "POST",
        files := some [samplePng, samplePng,
          { originalname := "n.txt", mimetype := "text/plain", size := 3 }] } {}).calls =
      [DriveCall.uploadFile samplePng, DriveCall.uploadFile samplePng] :=
  (uploadMultiple_accounts_for_every_file driveFailsSecond 0
    { method := "POST",
      files := some [samplePng, samplePng,
        { originalname := "n.txt", mimetype := "text/plain", size := 3 }] } {}
    [samplePng, samplePng, { originalname := "n.txt", mimetype := "text/plain", size := 3 }]
    rfl (by simp) rfl rfl).2.2.2.2.2.1

/-! ## The unit of `formatFileSize` -/

theorem logIndex_in_range (logIndex : Nat → Nat)
    (hmono : ∀ a b, 1 ≤ a → a ≤ b → logIndex a ≤ logIndex b)
    (hexact : ∀ k, k ≤ 4 → logIndex (1024 ^ k) = k)
    (hbelow : ∀ k, 1 ≤ k → k ≤ 4 → logIndex (1024 ^ k - 1) < k)
    (bytes : Nat) (h : 1 ≤ bytes) (hlt : bytes < 1024 ^ 4) :
    logIndex bytes = Nat.log 1024 bytes := by
  have hne : bytes ≠ 0 := by omega
  have hk : Nat.log 1024 bytes < 4 := (Nat.lt_pow_iff_log_lt (by norm_num) hne).1 hlt
  have hlo : 1024 ^ Nat.log 1024 bytes ≤ bytes := Nat.pow_log_le_self 1024 hne
  have hhi : bytes < 1024 ^ (Nat.log 1024 bytes + 1) := Nat.lt_pow_succ_log_self (by norm_num) bytes
  have hpos : 1 ≤ 1024 ^ Nat.log 1024 bytes := Nat.one_le_two_pow.trans
    (Nat.pow_le_pow_left (by norm_num) _)
  have h1 : Nat.log 1024 bytes ≤ logIndex bytes := by
    have := hmono _ _ hpos hlo
    rwa [hexact _ (by omega)] at this
  have h2 : logIndex bytes < Nat.log 1024 bytes + 1 := by
    have hm := hmono bytes (1024 ^ (Nat.log 1024 bytes + 1) - 1) h (by omega)
    have hb := hbelow (Nat.log 1024 bytes + 1) (by omega) (by omega)
    omega
  omega

theorem logIndex_out_of_range (logIndex : Nat → Nat)
    (hmono : ∀ a b, 1 ≤ a → a ≤ b → logIndex a ≤ logIndex b)
    (hexact : ∀ k, k ≤ 4 → logIndex (1024 ^ k) = k)
    (bytes : Nat) (hge : 1024 ^ 4 ≤ bytes) : 4 ≤ logIndex bytes := by
  have := hmono (1024 ^ 4) bytes (by norm_num) hge
  rwa [hexact 4 le_rfl] at this

theorem hundredths_nearest (i bytes : Nat) :
    2 * 1024 ^ i * hundredths i bytes ≤ 200 * bytes + 1024 ^ i ∧
    200 * bytes + 1024 ^ i < 2 * 1024 ^ i * (hundredths i bytes + 1) := by
  have hpos : 0 < 2 * 1024 ^ i := by positivity
  unfold hundredths
  exact ⟨Nat.mul_div_le _ _, Nat.lt_mul_div_succ _ hpos⟩

theorem hundredths_range (i bytes : Nat) (hlo : 1024 ^ i ≤ bytes) (hhi : bytes < 1024 ^ (i + 1)) :
    100 ≤ hundredths i bytes ∧ hundredths i bytes ≤ 102400 := by
  have hpos : 0 < 2 * 1024 ^ i := by positivity
  have hpow : 1024 ^ (i + 1) = 1024 ^ i * 1024 := pow_succ _ _
  unfold hundredths
  constructor
  · rw [Nat.le_div_iff_mul_le hpos]
    nlinarith
  · have : (200 * bytes + 1024 ^ i) / (2 * 1024 ^ i) < 102401 := by
      rw [Nat.div_lt_iff_lt_mul hpos]
      nlinarith
    omega

theorem formatFileSize_at (logIndex : Nat → Nat) (bytes i : Nat) (h : 1 ≤ bytes)
    (hi : logIndex bytes = i) :
    formatFileSize logIndex (some (bytes : Int)) =
      toString (hundredths i bytes / 100) ++ fractionText (hundredths i bytes % 100) ++ " " ++
        (sizes[i]?).getD "undefined" := by
  have h0 : ¬ ((bytes : Int) = 0) := by omega
  have h1 : ¬ ((bytes : Int) < 0) := by omega
  simp only [formatFileSize, h0, h1, if_false, Int.toNat_ofNat, hi]

theorem fractionText_table (m : Nat) (h : m < 100) :
    fractionText m =
      if m = 0 then ""
      else if m % 10 = 0 then "." ++ toString (m / 10)
      else if m < 10 then ".0" ++ toString m
      else "." ++ toString m := by
  revert m
  decide

theorem floorLog1024_eq_log (fuel n : Nat) (h : n ≤ fuel) :
    floorLog1024 fuel n = Nat.log 1024 n := by
  induction fuel generalizing n with
  | zero =>
    have hn : n = 0 := by omega
    subst hn
    simp [floorLog1024]
  | succ fuel ih =>
    unfold floorLog1024
    by_cases hlt : n < 1024
    · rw [if_pos hlt, Nat.log_of_lt hlt]
    · rw [if_neg hlt, Nat.log_of_one_lt_of_le (by norm_num) (by omega)]
      rw [ih (n / 1024) (by omega)]

theorem exactLogIndex_eq_log (bytes : Nat) : exactLogIndex bytes = Nat.log 1024 bytes :=
  floorLog1024_eq_log bytes bytes le_rfl

theorem exactLogIndex_mono (a b : Nat) (_ : 1 ≤ a) (hab : a ≤ b) :
    exactLogIndex a ≤ exactLogIndex b := by
  rw [exactLogIndex_eq_log, exactLogIndex_eq_log]
  exact Nat.log_mono_right hab

theorem exactLogIndex_pow (k : Nat) (_ : k ≤ 4) : exactLogIndex (1024 ^ k) = k := by
  rw [exactLogIndex_eq_log]
  exact Nat.log_pow (by norm_num) k

theorem exactLogIndex_below_pow (k : Nat) (hk : 1 ≤ k) (_ : k ≤ 4) :
    exactLogIndex (1024 ^ k - 1) < k := by
  rw [exactLogIndex_eq_log]
  have hpow : 1024 ^ 1 ≤ 1024 ^ k := Nat.pow_le_pow_right (by norm_num) hk
  exact Nat.log_lt_of_lt_pow (by omega) (by omega)

/-- C11: `formatFileSize(0)` is `'0 Bytes'`. Let the index `i` that the code computes in
double precision as `Math.floor(Math.log(bytes) / Math.log(1024))` be non-decreasing in
`bytes`, equal to `k` at `1024^k` and below `k` at `1024^k - 1`, for `k` up to 4. Then for
every integer `bytes ≥ 1`: `i` is an index of the four-entry table `sizes` if and only if
`bytes < 1024^4`; for such a value `i` is the floor of the logarithm of `bytes` in base
1024, so `1024^i ≤ bytes < 1024^(i+1)`, the number printed is `bytes / 1024^i` rounded to
two decimals (the nearest number `n` of hundredths, printed as `n / 100` without trailing
zeros) and lies between 1 and 1024, followed by the unit `sizes[i]`; from `1024^4` on the
index is outside the table, no unit of the table is printed and the text ends in
`undefined`. The texts for nine sample values are given. -/
theorem formatFileSize_unit_in_table_iff (logIndex : Nat → Nat)
    (hmono : ∀ a b, 1 ≤ a → a ≤ b → logIndex a ≤ logIndex b)
    (hexact : ∀ k, k ≤ 4 → logIndex (1024 ^ k) = k)
    (hbelow : ∀ k, 1 ≤ k → k ≤ 4 → logIndex (1024 ^ k - 1) < k)
    (bytes : Nat) (h : 1 ≤ bytes) :
    formatFileSize logIndex (some 0) = "0 Bytes" ∧
    sizes.length = 4 ∧
    (logIndex bytes < sizes.length ↔ bytes < 1024 ^ 4) ∧
    (bytes < 1024 ^ 4 →
      logIndex bytes = Nat.log 1024 bytes ∧
      1024 ^ logIndex bytes ≤ bytes ∧ bytes < 1024 ^ (logIndex bytes + 1) ∧
      2 * 1024 ^ logIndex bytes * hundredths (logIndex bytes) bytes ≤
        200 * bytes + 1024 ^ logIndex bytes ∧
      200 * bytes + 1024 ^ logIndex bytes <
        2 * 1024 ^ logIndex bytes * (hundredths (logIndex bytes) bytes + 1) ∧
      100 ≤ hundredths (logIndex bytes) bytes ∧ hundredths (logIndex bytes) bytes ≤ 102400 ∧
      ∃ u, u ∈ sizes ∧ sizes[logIndex bytes]? = some u ∧
        formatFileSize logIndex (some (bytes : Int)) =
          toString (hundredths (logIndex bytes) bytes / 100) ++
            fractionText (hundredths (logIndex bytes) bytes % 100) ++ " " ++ u) ∧
    (1024 ^ 4 ≤ bytes →
      sizes[logIndex bytes]? = none ∧
      formatFileSize logIndex (some (bytes : Int)) =
        toString (hundredths (logIndex bytes) bytes / 100) ++
          fractionText (hundredths (logIndex bytes) bytes % 100) ++ " undefined") ∧
    (∀ m, m < 100 → fractionText m =
      if m = 0 then ""
      else if m % 10 = 0 then "." ++ toString (m / 10)
      else if m < 10 then ".0" ++ toString m
      else "." ++ toString m) ∧
    formatFileSize logIndex (some 1) = "1 Bytes" ∧
    formatFileSize logIndex (some 1023) = "1023 Bytes" ∧
    formatFileSize logIndex (some 1024) = "1 KB" ∧
    formatFileSize logIndex (some 1100) = "1.07 KB" ∧
    formatFileSize logIndex (some 1152) = "1.13 KB" ∧
    formatFileSize logIndex (some 1536) = "1.5 KB" ∧
    formatFileSize logIndex (some 1048575) = "1024 KB" ∧
    formatFileSize logIndex (some 1073741824) = "1 GB" ∧
    formatFileSize logIndex (some 1099511627776) = "1 undefined" := by
  have hin := logIndex_in_range logIndex hmono hexact hbelow
  have hout := logIndex_out_of_range logIndex hmono hexact
  have hne : bytes ≠ 0 := by omega
  have hiff : logIndex bytes < sizes.length ↔ bytes < 1024 ^ 4 := by
    constructor
    · intro hlt
      by_contra hcon
      have := hout bytes (by omega)
      have hl : sizes.length = 4 := rfl
      omega
    · intro hlt
      rw [hin bytes h hlt]
      exact (Nat.lt_pow_iff_log_lt (by norm_num) hne).1 hlt
  have hval : ∀ (b i : Nat), 1 ≤ b → b < 1024 ^ 4 → 1024 ^ i ≤ b → b < 1024 ^ (i + 1) →
      logIndex b = i := by
    intro b i hb hlt hlo hhi
    rw [hin b hb hlt]
    exact Nat.log_eq_of_pow_le_of_lt_pow hlo hhi
  refine ⟨by simp [formatFileSize], rfl, hiff, ?_, ?_, fractionText_table, ?_, ?_, ?_, ?_, ?_, ?_, ?_,
    ?_, ?_⟩
  · intro hlt
    have hlog := hin bytes h hlt
    have hlo : 1024 ^ logIndex bytes ≤ bytes := by
      rw [hlog]
      exact Nat.pow_log_le_self 1024 hne
    have hhi : bytes < 1024 ^ (logIndex bytes + 1) := by
      rw [hlog]
      exact Nat.lt_pow_succ_log_self (by norm_num) bytes
    have hidx : logIndex bytes < sizes.length := hiff.2 hlt
    obtain ⟨hn1, hn2⟩ := hundredths_nearest (logIndex bytes) bytes
    obtain ⟨hr1, hr2⟩ := hundredths_range (logIndex bytes) bytes hlo hhi
    refine ⟨hlog, hlo, hhi, hn1, hn2, hr1, hr2, sizes[logIndex bytes], List.getElem_mem _,
      List.getElem?_eq_getElem hidx, ?_⟩
    rw [formatFileSize_at logIndex bytes (logIndex bytes) h rfl, List.getElem?_eq_getElem hidx]
    rfl
  · intro hge
    have hidx : sizes.length ≤ logIndex bytes := hout bytes hge
    have hnone : sizes[logIndex bytes]? = none := List.getElem?_eq_none hidx
    refine ⟨hnone, ?_⟩
    rw [formatFileSize_at logIndex bytes (logIndex bytes) h rfl, hnone, Option.getD_none,
      String.append_assoc _ " " "undefined"]
    rfl
  · exact (formatFileSize_at logIndex 1 0 (by decide)
      (hval 1 0 (by decide) (by norm_num) (by norm_num) (by norm_num))).trans (by decide)
  · exact (formatFileSize_at logIndex 1023 0 (by decide)
      (hval 1023 0 (by decide) (by norm_num) (by norm_num) (by norm_num))).trans (by decide)
  · exact (formatFileSize_at logIndex 1024 1 (by decide)
      (hval 1024 1 (by decide) (by norm_num) (by norm_num) (by norm_num))).trans (by decide)
  · exact (formatFileSize_at logIndex 1100 1 (by decide)
      (hval 1100 1 (by decide) (by norm_num) (by norm_num) (by norm_num))).trans (by decide)
  · exact (formatFileSize_at logIndex 1152 1 (by decide)
      (hval 1152 1 (by decide) (by norm_num) (by norm_num) (by norm_num))).trans (by decide)
  · exact (formatFileSize_at logIndex 1536 1 (by decide)
      (hval 1536 1 (by decide) (by norm_num) (by norm_num) (by norm_num))).trans (by decide)
  · exact (formatFileSize_at logIndex 1048575 1 (by decide)
      (hval 1048575 1 (by decide) (by norm_num) (by norm_num) (by norm_num))).trans (by decide)
  · exact (formatFileSize_at logIndex 1073741824 3 (by decide)
      (hval 1073741824 3 (by decide) (by norm_num) (by norm_num) (by norm_num))).trans
      (by decide)
  · have h4 : logIndex 1099511627776 = 4 := by
      have := hexact 4 le_rfl
      norm_num at this
      exact this
    exact (formatFileSize_at logIndex 1099511627776 4 (by decide) h4).trans (by decide)

/-- C11 at the exact floor logarithm as index and a storage quota of 1 TiB, `bytes = 1024^4`:
the text is `1 undefined`. -/
theorem formatFileSize_unit_in_table_iff_witness :
    formatFileSize exactLogIndex (some 1099511627776) = "1 undefined" :=
  (formatFileSize_unit_in_table_iff exactLogIndex exactLogIndex_mono exactLogIndex_pow
    exactLogIndex_below_pow 1 (by decide)).2.2.2.2.2.2.2.2.2.2.2.2.2.2

end GDriveCDN
